import Mathlib

/-!
# Verification of the td_rlua host/script value bridge

A shallow embedding of the two source files of the repository,
`src/td_rlua/src/values.rs` (the primitive codec) and
`src/td_rlua/src/userdata.rs` (the opaque value carrier and the native
type registrar), over an explicit model of the Lua C-API state that both
files drive.

Modelling conventions:
* Lua byte strings are `List Nat` (one entry per byte).
* Host types are abstracted to a numeric type code `ty : Nat`; the
  identity string `format!("\x7b:?\x7d", TypeId::of::<T>())` is modelled by
  `typeIdBytes`, an injective, nul-free, ASCII encoding of the type code.
* C function pointers are numeric addresses: `destructor_impl::<T>` and
  `constructor_impl::<T>` get distinct addresses per type code, and the two
  `extern fn` wrappers get two fixed addresses; `runCFn` is the dispatch.
* `f32`/`f64` host values are IEEE-754 bit patterns (`Nat` below `2^32` /
  `2^64`); the Rust `as` casts between them are modelled bit-exactly.
* Machine integers are `Int`/`Nat` with explicit wrap-around arithmetic.
* A Rust panic (the `CString::new(..).unwrap()` on a string holding an
  interior nul byte) is modelled by `Option`: `none` is the aborted call.
* The interpreter side (the `c_lua` crate) is external to the repository;
  its functions are modelled from the reference Lua semantics, restricted
  to the behaviour the two source files exercise (string table keys, no
  `__index` metamethod chains on the tables the bridge itself builds).
-/

namespace TdRlua

/-- A Lua byte string: one `Nat` per byte. -/
abbrev Bytes := List Nat

/-- The bytes of a Lean string literal (its code points, which coincide
with its UTF-8 bytes on the ASCII keys `"__typeid"`, `"__gc"`,
`"__index"`, `"__call"` the source pushes). -/
def bs (s : String) : Bytes := s.toList.map Char.toNat

/-- A Lua value as seen on the stack or inside a table.  Tables and full
userdata are references into the heaps of `LuaState`; a C closure keeps its
function-pointer address and its single light-userdata upvalue, the only
shape `lua_pushcclosure` is given in this code base. -/
inductive LuaValue where
  | nil
  | boolean (b : Bool)
  | integer (n : Int)
  | number (bits : Nat)
  | str (s : Bytes)
  | table (id : Nat)
  | userdata (id : Nat)
  | lightuserdata (addr : Nat)
  | cclosure (fnAddr : Nat) (upval : Option Nat)
deriving DecidableEq, Repr

/-- Entries of a Lua table, string-keyed (the only key kind this code
uses).  Writes cons on the front and reads take the first hit, so the most
recent write wins. -/
abbrev TableData := List (Bytes × LuaValue)

/-- Contents of a full-userdata block: freshly allocated raw memory, a
copied-in host value (type code and payload), or the uninitialized
placeholder the finalizer leaves behind. -/
inductive Block where
  | raw
  | host (ty payload : Nat)
  | uninit
deriving DecidableEq, Repr

/-- A full userdata: its block and its optional metatable. -/
structure Udata where
  block : Block
  meta : Option Nat
deriving DecidableEq, Repr

/-- A heap table: its entries and its optional metatable. -/
structure TableObj where
  entries : TableData
  meta : Option Nat
deriving DecidableEq, Repr

/-- The modelled interpreter state.  `stack` has its head at the top.
`droppedLog` records every host block the finalizer hands to the host
`Drop` glue (the "meaningful teardown" events); `lightMeta` is the single
shared metatable Lua keeps for all light userdata. -/
structure LuaState where
  stack : List LuaValue
  tables : List (Nat × TableObj)
  udatas : List (Nat × Udata)
  globals : List (String × LuaValue)
  lightMeta : Option Nat
  droppedLog : List Block
  nextId : Nat
deriving DecidableEq, Repr

/-- The empty interpreter state. -/
def stEmpty : LuaState :=
  { stack := [], tables := [], udatas := [], globals := [],
    lightMeta := none, droppedLog := [], nextId := 0 }

/-- First-hit lookup in table entries; a missing key reads as `nil`. -/
def tget : TableData → Bytes → LuaValue
  | [], _ => .nil
  | (k', v) :: rest, k => if k' = k then v else tget rest k

/-- Write an entry; the new pair shadows any older one. -/
def tset (l : TableData) (k : Bytes) (v : LuaValue) : TableData :=
  (k, v) :: l

/-- First-hit lookup in a `Nat`-keyed heap. -/
def hget {α : Type} : List (Nat × α) → Nat → Option α
  | [], _ => none
  | (i, x) :: rest, j => if i = j then some x else hget rest j

/-- First-hit lookup among the globals. -/
def gget : List (String × LuaValue) → String → Option LuaValue
  | [], _ => none
  | (n, v) :: rest, m => if n = m then some v else gget rest m

/-- The table object behind an id (a dangling id reads as an empty
table; the bridge never produces one). -/
def getTable (st : LuaState) (i : Nat) : TableObj :=
  (hget st.tables i).getD { entries := [], meta := none }

/-- The userdata object behind an id. -/
def getUdata (st : LuaState) (i : Nat) : Option Udata :=
  hget st.udatas i

def setTableObj (st : LuaState) (i : Nat) (t : TableObj) : LuaState :=
  { st with tables := (i, t) :: st.tables }

def setUdataObj (st : LuaState) (i : Nat) (u : Udata) : LuaState :=
  { st with udatas := (i, u) :: st.udatas }

/-- Overwrite the block of a userdata (both `ptr::copy_nonoverlapping`
into the fresh block and the finalizer's `mem::replace`). -/
def setBlock (st : LuaState) (i : Nat) (b : Block) : LuaState :=
  match getUdata st i with
  | some u => setUdataObj st i { u with block := b }
  | none => st

/-- Resolve a Lua stack index: negative counts from the top (`-1` is the
top), positive counts from the bottom (1-based).  Out-of-range indices
read as no slot, matching an invalid index. -/
def absSlot (st : LuaState) (i : Int) : Option LuaValue :=
  if i < 0 then st.stack.get? ((-i - 1).toNat)
  else if 0 < i ∧ i.toNat ≤ st.stack.length then
    st.stack.get? (st.stack.length - i.toNat)
  else none

/-- Push one value. -/
def pushV (st : LuaState) (v : LuaValue) : LuaState :=
  { st with stack := v :: st.stack }

/-- `lua_pop(lua, n)`. -/
def luaPop (st : LuaState) (n : Nat) : LuaState :=
  { st with stack := st.stack.drop n }

/-! ## IEEE-754 bit-level arithmetic

The codec widens every `f32` to `f64` on push (`self as f64`) and narrows
the slot's double back on read (`val as f32`).  Both casts are modelled on
bit patterns: `widenF32` is the exact single-to-double conversion,
`narrowF64` rounds to nearest, ties to even, with gradual underflow and
overflow to infinity, the IEEE behaviour the Rust casts follow. -/

/-- Round `m / 2^sh` to the nearest integer, ties to even. -/
def rhe (m sh : Nat) : Nat :=
  let q := m / 2 ^ sh
  let r := m % 2 ^ sh
  let half := 2 ^ (sh - 1)
  if half < r ∨ (r = half ∧ q % 2 = 1) then q + 1 else q

/-- Round `m * 2^sh` for a possibly negative shift `sh : Int`: scaling up
is exact, scaling down rounds half to even. -/
def rheI (m : Nat) (sh : Int) : Nat :=
  if sh ≤ 0 then m * 2 ^ (-sh).toNat else rhe m sh.toNat

/-- Round the positive real `m * 2^e2` (`m ≠ 0`) to a binary format with
`mb` mantissa bits and exponent bias `B`; the result is the bit pattern
without the sign bit (infinity on overflow).  The binade `be` of the
input picks the ulp: `be - mb` for normal results, `1 - B - mb` below
the normal range; the rounded significand `q` may carry into the next
binade. -/
def roundPos (mb B m : Nat) (e2 : Int) : Nat :=
  let be : Int := Nat.log2 m + e2
  if be < 1 - (B : Int) then
    rheI m (1 - B - mb - e2)
  else
    let q := rheI m (be - mb - e2)
    let q' := if q = 2 ^ (mb + 1) then 2 ^ mb else q
    let be' := if q = 2 ^ (mb + 1) then be + 1 else be
    if (B : Int) < be' then (2 * B + 1) * 2 ^ mb
    else (be' + B).toNat * 2 ^ mb + (q' - 2 ^ mb)

/-- `f32 as f64` on bit patterns (exact; NaN payloads ride along in the
high mantissa bits, a legal refinement of the unspecified NaN result). -/
def widenF32 (b : Nat) : Nat :=
  let s := b / 2 ^ 31
  let e := b / 2 ^ 23 % 2 ^ 8
  let m := b % 2 ^ 23
  if e = 255 then s * 2 ^ 63 + 2047 * 2 ^ 52 + m * 2 ^ 29
  else if e = 0 then
    if m = 0 then s * 2 ^ 63
    else
      let t := Nat.log2 m
      s * 2 ^ 63 + (t + 874) * 2 ^ 52 + (m - 2 ^ t) * 2 ^ (52 - t)
  else s * 2 ^ 63 + (e + 896) * 2 ^ 52 + m * 2 ^ 29

/-- `f64 as f32` on bit patterns: round to nearest, ties to even. A NaN
whose payload would vanish in the truncation stays a (quiet) NaN. -/
def narrowF64 (b : Nat) : Nat :=
  let s : Nat := b / 2 ^ 63
  let e : Nat := b / 2 ^ 52 % 2 ^ 11
  let m : Nat := b % 2 ^ 52
  if e = 2047 then
    if m ≠ 0 ∧ m / 2 ^ 29 = 0 then s * 2 ^ 31 + 255 * 2 ^ 23 + 2 ^ 22
    else s * 2 ^ 31 + 255 * 2 ^ 23 + m / 2 ^ 29
  else if e = 0 ∧ m = 0 then s * 2 ^ 31
  else
    let m64 : Nat := if e = 0 then m else 2 ^ 52 + m
    let e2 : Int := if e = 0 then -1074 else (e : Int) - 1075
    s * 2 ^ 31 + roundPos 23 127 m64 e2

/-- `i64 as f64` (`lua_tonumberx` applied to an integer slot): round to
the nearest double, ties to even. -/
def intToF64bits (n : Int) : Nat :=
  if n = 0 then 0
  else (if n < 0 then 2 ^ 63 else 0) + roundPos 52 1023 n.natAbs 0

/-- The exact integer value of a double, when it has one in the signed
64-bit range (`lua_tointegerx` applied to a float slot). -/
def f64ToIntExact (b : Nat) : Option Int :=
  let s : Nat := b / 2 ^ 63
  let e : Nat := b / 2 ^ 52 % 2 ^ 11
  let m : Nat := b % 2 ^ 52
  if e = 2047 then none
  else
    let m64 : Nat := if e = 0 then m else 2 ^ 52 + m
    let e2 : Int := if e = 0 then -1074 else (e : Int) - 1075
    if m64 = 0 then some 0
    else if 0 ≤ e2 then
      let v : Int := (m64 : Int) * 2 ^ e2.toNat
      let v := if s = 1 then -v else v
      if -(2 ^ 63) ≤ v ∧ v < 2 ^ 63 then some v else none
    else if (2 ^ (-e2).toNat : Nat) ∣ m64 then
      let v : Int := ((m64 / 2 ^ (-e2).toNat : Nat) : Int)
      some (if s = 1 then -v else v)
    else none

/-! ## The `c_lua` stack / table / global / metatable interface

These model the external embedding API the two source files call, from the
reference Lua semantics, restricted to the shapes this code exercises:
table keys here are always strings, and the tables the bridge builds carry
no `__index` metamethod chain of their own. -/

def lua_pushinteger (st : LuaState) (n : Int) : LuaState :=
  pushV st (.integer n)

def lua_pushnumber (st : LuaState) (b : Nat) : LuaState :=
  pushV st (.number b)

def lua_pushboolean (st : LuaState) (b : Bool) : LuaState :=
  pushV st (.boolean b)

def lua_pushnil (st : LuaState) : LuaState :=
  pushV st .nil

/-- `lua_pushstring`: the argument is an already nul-checked C string. -/
def lua_pushstring (st : LuaState) (s : Bytes) : LuaState :=
  pushV st (.str s)

def lua_pushlightuserdata (st : LuaState) (a : Nat) : LuaState :=
  pushV st (.lightuserdata a)

/-- `lua_tointegerx`: an integer slot converts as is, a float slot only
when its value is an exact signed-64-bit integer.  (Lua also converts
numeric strings; no code path here reads integers from string slots.) -/
def lua_tointegerx (st : LuaState) (idx : Int) : Option Int :=
  match absSlot st idx with
  | some (.integer n) => some n
  | some (.number b) => f64ToIntExact b
  | _ => none

/-- `lua_tonumberx`: result is an `f64` bit pattern. -/
def lua_tonumberx (st : LuaState) (idx : Int) : Option Nat :=
  match absSlot st idx with
  | some (.number b) => some b
  | some (.integer n) => some (intToF64bits n)
  | _ => none

def lua_isboolean (st : LuaState) (idx : Int) : Bool :=
  match absSlot st idx with
  | some (.boolean _) => true
  | _ => false

/-- `lua_toboolean`: only `nil` and `false` test false. -/
def lua_toboolean (st : LuaState) (idx : Int) : Bool :=
  match absSlot st idx with
  | some .nil => false
  | some (.boolean b) => b
  | some _ => true
  | none => false

/-- The byte image `lua_tolstring` hands back: strings as they are,
numbers after conversion to their decimal text.  `f64Image` stands in for
the float formatting; no verified claim depends on float string images. -/
def f64Image (b : Nat) : Bytes := (toString b).toList.map Char.toNat

def intImage (n : Int) : Bytes := (toString n).toList.map Char.toNat

def lua_tolstring (st : LuaState) (idx : Int) : Option Bytes :=
  match absSlot st idx with
  | some (.str s) => some s
  | some (.integer n) => some (intImage n)
  | some (.number b) => some (f64Image b)
  | _ => none

/-- `lua_istable`. -/
def lua_istable (st : LuaState) (idx : Int) : Bool :=
  match absSlot st idx with
  | some (.table _) => true
  | _ => false

/-- `lua_newtable`: allocates a fresh empty table and pushes it. -/
def lua_newtable (st : LuaState) : Nat × LuaState :=
  let i := st.nextId
  (i, pushV { st with tables := (i, { entries := [], meta := none }) :: st.tables,
                      nextId := st.nextId + 1 } (.table i))

/-- `lua_newuserdata`: allocates a fresh block of raw memory and pushes
the full userdata that owns it. -/
def lua_newuserdata (st : LuaState) : Nat × LuaState :=
  let i := st.nextId
  (i, pushV { st with udatas := (i, { block := .raw, meta := none }) :: st.udatas,
                      nextId := st.nextId + 1 } (.userdata i))

/-- `lua_settable(lua, idx)`: key at `-2`, value at `-1`, both popped and
written into the table at `idx`. -/
def lua_settable (st : LuaState) (idx : Int) : LuaState :=
  match st.stack with
  | v :: k :: _ =>
    match absSlot st idx, k with
    | some (.table t), .str ks =>
      let obj := getTable st t
      setTableObj (luaPop st 2) t { obj with entries := tset obj.entries ks v }
    | _, _ => luaPop st 2
  | _ => st

/-- `lua_rawset`: on the metatable-free tables this bridge builds it
coincides with `lua_settable`. -/
def lua_rawset (st : LuaState) (idx : Int) : LuaState :=
  lua_settable st idx

/-- `lua_gettable(lua, idx)`: pops the key at the top and pushes the
entry of the table at `idx` (`nil` when absent). -/
def lua_gettable (st : LuaState) (idx : Int) : LuaState :=
  match st.stack with
  | k :: _ =>
    match absSlot st idx, k with
    | some (.table t), .str ks => pushV (luaPop st 1) (tget (getTable st t).entries ks)
    | _, _ => pushV (luaPop st 1) .nil
  | [] => st

/-- `lua_getmetatable`: pushes the metatable of the value at `idx` and
reports success; light userdata share one per-type metatable. -/
def lua_getmetatable (st : LuaState) (idx : Int) : Option LuaState :=
  match absSlot st idx with
  | some (.userdata u) => ((getUdata st u).bind Udata.meta).map (fun m => pushV st (.table m))
  | some (.table t) => (getTable st t).meta.map (fun m => pushV st (.table m))
  | some (.lightuserdata _) => st.lightMeta.map (fun m => pushV st (.table m))
  | _ => none

/-- `lua_setmetatable`: pops the table (or `nil`) at the top and installs
it as the metatable of the value at `idx`. -/
def lua_setmetatable (st : LuaState) (idx : Int) : LuaState :=
  match st.stack with
  | mv :: _ =>
    let target := absSlot st idx
    let st' := luaPop st 1
    let mopt : Option Nat := match mv with | .table m => some m | _ => none
    match target with
    | some (.userdata u) =>
      match getUdata st' u with
      | some ud => setUdataObj st' u { ud with meta := mopt }
      | none => st'
    | some (.table t) => setTableObj st' t { getTable st' t with meta := mopt }
    | some (.lightuserdata _) => { st' with lightMeta := mopt }
    | _ => st'
  | [] => st

/-- `lua_touserdata`: the block address for a full userdata, the stored
address for a light userdata, `NULL` for everything else. -/
def lua_touserdata (st : LuaState) (idx : Int) : Option Nat :=
  match absSlot st idx with
  | some (.userdata u) => some u
  | some (.lightuserdata a) => some a
  | _ => none

def lua_getglobal (st : LuaState) (name : String) : LuaState :=
  pushV st ((gget st.globals name).getD .nil)

def lua_setglobal (st : LuaState) (name : String) : LuaState :=
  match st.stack with
  | v :: _ => { luaPop st 1 with globals := (name, v) :: st.globals }
  | [] => st

/-- `lua_pushcclosure(lua, fn, n)`: pops the `n` upvalues and pushes the
closure.  The bridge only ever binds a single light-userdata upvalue. -/
def lua_pushcclosure (st : LuaState) (fn : Nat) (n : Nat) : LuaState :=
  let up : Option Nat :=
    if n = 1 then
      match st.stack.head? with
      | some (.lightuserdata a) => some a
      | _ => none
    else none
  pushV (luaPop st n) (.cclosure fn up)

/-! ## `values.rs`: the primitive codec

One `push_to_lua` / `lua_read_with_pop` pair per instantiation of the
`integer_impl!` and `numeric_impl!` macros, plus the `String`, `bool` and
`()` impls.  Host machine integers are carried as `Int`/`Nat` and the
Rust `as` casts appear as explicit wrap-around arithmetic. -/

/-- `v as iW` for a signed `W`-bit target: two's-complement truncation. -/
def wrapSigned (w : Nat) (v : Int) : Int :=
  (v + 2 ^ (w - 1)) % 2 ^ w - 2 ^ (w - 1)

/-- `v as uW` for an unsigned `W`-bit target. -/
def wrapUnsigned (w : Nat) (v : Int) : Int :=
  v % 2 ^ w

/-- `integer_impl!(i8)` push: `self as lua_Integer` is value-preserving
on the `i8` range. -/
def i8_push_to_lua (k : Int) (st : LuaState) : LuaState := lua_pushinteger st k

/-- `integer_impl!(i8)` read: `lua_tointegerx` then `val as i8`. -/
def i8_lua_read_with_pop (st : LuaState) (idx : Int) : Option Int :=
  (lua_tointegerx st idx).map (wrapSigned 8)

def i16_push_to_lua (k : Int) (st : LuaState) : LuaState := lua_pushinteger st k

def i16_lua_read_with_pop (st : LuaState) (idx : Int) : Option Int :=
  (lua_tointegerx st idx).map (wrapSigned 16)

def i32_push_to_lua (k : Int) (st : LuaState) : LuaState := lua_pushinteger st k

def i32_lua_read_with_pop (st : LuaState) (idx : Int) : Option Int :=
  (lua_tointegerx st idx).map (wrapSigned 32)

def u8_push_to_lua (k : Int) (st : LuaState) : LuaState := lua_pushinteger st k

def u8_lua_read_with_pop (st : LuaState) (idx : Int) : Option Int :=
  (lua_tointegerx st idx).map (wrapUnsigned 8)

def u16_push_to_lua (k : Int) (st : LuaState) : LuaState := lua_pushinteger st k

def u16_lua_read_with_pop (st : LuaState) (idx : Int) : Option Int :=
  (lua_tointegerx st idx).map (wrapUnsigned 16)

def u32_push_to_lua (k : Int) (st : LuaState) : LuaState := lua_pushinteger st k

def u32_lua_read_with_pop (st : LuaState) (idx : Int) : Option Int :=
  (lua_tointegerx st idx).map (wrapUnsigned 32)

/-- `integer_impl!(usize)` push: `self as lua_Integer` reinterprets the
64-bit unsigned value as signed. -/
def usize_push_to_lua (k : Nat) (st : LuaState) : LuaState :=
  lua_pushinteger st (wrapSigned 64 k)

/-- `integer_impl!(usize)` read: `val as usize` reinterprets back. -/
def usize_lua_read_with_pop (st : LuaState) (idx : Int) : Option Nat :=
  (lua_tointegerx st idx).map (fun v => (wrapUnsigned 64 v).toNat)

/-- `numeric_impl!(f32)` push: `self as f64` widens, then
`lua_pushnumber`. -/
def f32_push_to_lua (b : Nat) (st : LuaState) : LuaState :=
  lua_pushnumber st (widenF32 b)

/-- `numeric_impl!(f32)` read: `lua_tonumberx` then `val as f32`. -/
def f32_lua_read_with_pop (st : LuaState) (idx : Int) : Option Nat :=
  (lua_tonumberx st idx).map narrowF64

/-- `numeric_impl!(f64)` push: `self as f64` is the identity. -/
def f64_push_to_lua (b : Nat) (st : LuaState) : LuaState :=
  lua_pushnumber st b

def f64_lua_read_with_pop (st : LuaState) (idx : Int) : Option Nat :=
  lua_tonumberx st idx

/-- `LuaPush for bool`: `self as c_int`, then `lua_pushboolean`. -/
def bool_push_to_lua (b : Bool) (st : LuaState) : LuaState :=
  lua_pushboolean st b

/-- `LuaRead for bool`: `lua_isboolean` first; a non-boolean slot is
refused before any truthiness conversion. -/
def bool_lua_read_with_pop (st : LuaState) (idx : Int) : Option Bool :=
  if lua_isboolean st idx ≠ true then none
  else some (lua_toboolean st idx)

/-- `LuaPush for ()`: pushes `nil`. -/
def unit_push_to_lua (st : LuaState) : LuaState := lua_pushnil st

/-- `LuaRead for ()`: always succeeds. -/
def unit_lua_read_with_pop (_st : LuaState) (_idx : Int) : Option Unit := some ()

/-- `LuaPush for String`: `CString::new` rejects a host string holding an
interior nul byte — the `.unwrap()` aborts the call (the spec's
`EncodingError`); otherwise the bytes go to `lua_pushstring` unchanged. -/
def string_push_to_lua (s : Bytes) (st : LuaState) : Option LuaState :=
  if 0 ∈ s then none
  else some (lua_pushstring st s)

/-- The bytes of the replacement character `U+FFFD`. -/
def repl : Bytes := [239, 191, 189]

/-- Is `b` a UTF-8 continuation byte? -/
def isCont (b : Nat) : Bool := 128 ≤ b ∧ b < 192

/-- The admissible first continuation byte after a three-byte lead. -/
def cont3ok (lead c : Nat) : Bool :=
  if lead = 224 then 160 ≤ c ∧ c < 192
  else if lead = 237 then 128 ≤ c ∧ c < 160
  else isCont c

/-- The admissible first continuation byte after a four-byte lead. -/
def cont4ok (lead c : Nat) : Bool :=
  if lead = 240 then 144 ≤ c ∧ c < 192
  else if lead = 244 then 128 ≤ c ∧ c < 144
  else isCont c

/-- `String::from_utf8_lossy`: valid sequences pass through, each maximal
invalid subsequence becomes one `U+FFFD`. -/
def utf8Lossy : Bytes → Bytes
  | [] => []
  | b :: rest =>
    if b < 128 then b :: utf8Lossy rest
    else if 194 ≤ b ∧ b ≤ 223 then
      match rest with
      | [] => repl
      | c1 :: rest1 =>
        if isCont c1 then b :: c1 :: utf8Lossy rest1
        else repl ++ utf8Lossy (c1 :: rest1)
    else if 224 ≤ b ∧ b ≤ 239 then
      match rest with
      | [] => repl
      | c1 :: rest1 =>
        if cont3ok b c1 then
          match rest1 with
          | [] => repl
          | c2 :: rest2 =>
            if isCont c2 then b :: c1 :: c2 :: utf8Lossy rest2
            else repl ++ utf8Lossy (c2 :: rest2)
        else repl ++ utf8Lossy (c1 :: rest1)
    else if 240 ≤ b ∧ b ≤ 244 then
      match rest with
      | [] => repl
      | c1 :: rest1 =>
        if cont4ok b c1 then
          match rest1 with
          | [] => repl
          | c2 :: rest2 =>
            if isCont c2 then
              match rest2 with
              | [] => repl
              | c3 :: rest3 =>
                if isCont c3 then b :: c1 :: c2 :: c3 :: utf8Lossy rest3
                else repl ++ utf8Lossy (c3 :: rest3)
            else repl ++ utf8Lossy (c2 :: rest2)
        else repl ++ utf8Lossy (c1 :: rest1)
    else repl ++ utf8Lossy rest

/-- `CStr::from_ptr` sees the bytes up to the first nul. -/
def cstrTake (s : Bytes) : Bytes := s.takeWhile (fun b => b ≠ 0)

/-- `LuaRead for String`: `lua_tolstring`, then the returned pointer is
re-read as a C string (so it stops at an embedded nul) and converted with
`String::from_utf8_lossy`. -/
def string_lua_read_with_pop (st : LuaState) (idx : Int) : Option Bytes :=
  match lua_tolstring st idx with
  | none => none
  | some raw => some (utf8Lossy (cstrTake raw))

/-! ## `userdata.rs`: the opaque value carrier and the registrar -/

/-- The identity string of the host type with code `ty`: an injective,
nul-free, ASCII stand-in for the fingerprint the source formats from
`TypeId::of::<T>()`. -/
def typeIdBytes (ty : Nat) : Bytes := 84 :: List.replicate ty 49

/-- `T::name()` of the `NewStruct` trait, for the type with code `ty`. -/
def hostName (ty : Nat) : String := "HostType" ++ toString ty

/-- The payload bytes of the default-constructed host value `T::new()`. -/
def hostNew (ty : Nat) : Nat := ty + 100

/-- The address of the monomorphised `fn destructor_impl::<T>`. -/
def destructorAddr (ty : Nat) : Nat := 2 * ty

/-- The address of the monomorphised `fn constructor_impl::<T>`. -/
def constructorAddr (ty : Nat) : Nat := 2 * ty + 1

/-- The address of `extern fn destructor_wrapper`. -/
def destructorWrapperAddr : Nat := 0

/-- The address of `extern fn constructor_wrapper`. -/
def constructorWrapperAddr : Nat := 1

/-- `fn destructor_impl::<T>`: reads the userdata at `-1`, swaps an
uninitialized placeholder into the block with `mem::replace` — the value
swapped out is dropped, which is where host teardown runs, recorded in
`droppedLog` — and returns status 0.  (The type parameter only selects
the `Drop` glue; the log records the block it received.) -/
def destructor_impl (_ty : Nat) (st : LuaState) : Int × LuaState :=
  match absSlot st (-1) with
  | some (.userdata u) =>
    match getUdata st u with
    | some ud =>
      let st' := setUdataObj st u { ud with block := .uninit }
      (0, { st' with droppedLog := st'.droppedLog ++ [ud.block] })
    | none => (0, st)
  | _ => (0, st)

/-- `fn constructor_impl::<T>`: boxes `T::new()`, copies it into a fresh
userdata block, fetches the type's global descriptor and installs it as
the userdata's metatable, and returns one result. -/
def constructor_impl (ty : Nat) (st : LuaState) : Int × LuaState :=
  let (u, st) := lua_newuserdata st
  let st := setBlock st u (.host ty (hostNew ty))
  let st := lua_getglobal st (hostName ty)
  let st := lua_setmetatable st (-2)
  (1, st)

/-- Dispatch on a reinterpreted `fn` pointer address. -/
def runImpl (a : Nat) (st : LuaState) : Int × LuaState :=
  if a % 2 = 0 then destructor_impl (a / 2) st else constructor_impl (a / 2) st

/-- `extern fn destructor_wrapper`: reads its light-userdata upvalue,
transmutes it back to the `fn` pointer and tail-calls it. -/
def destructor_wrapper (up : Option Nat) (st : LuaState) : Int × LuaState :=
  match up with
  | some a => runImpl a st
  | none => (0, st)

/-- `extern fn constructor_wrapper`: same body as `destructor_wrapper`. -/
def constructor_wrapper (up : Option Nat) (st : LuaState) : Int × LuaState :=
  match up with
  | some a => runImpl a st
  | none => (0, st)

/-- Invoke a C closure by its function address. -/
def runCFn (fn : Nat) (up : Option Nat) (st : LuaState) : Int × LuaState :=
  if fn = destructorWrapperAddr then destructor_wrapper up st
  else if fn = constructorWrapperAddr then constructor_wrapper up st
  else (0, st)

/-- The caller-supplied `metatable` closure of `push_userdata` /
`push_lightuserdata`, modelled as a sequence of writes into the table at
the top of the stack (the handle `LuaRead::lua_read(lua).unwrap()` hands
it). -/
def applyBuilder (extra : TableData) (st : LuaState) : LuaState :=
  match st.stack.head? with
  | some (.table t) =>
    extra.foldl (fun s p =>
      setTableObj s t { getTable s t with entries := tset (getTable s t).entries p.1 p.2 }) st
  | _ => st

/-- `pub fn push_userdata`: copy the host value into a fresh interpreter
block, build a fresh metatable holding `__typeid` and the `__gc`
finalizer closure, let the builder add entries, attach the metatable. -/
def push_userdata (ty payload : Nat) (extra : TableData) (st : LuaState) :
    Option LuaState :=
  let typeid := typeIdBytes ty
  let (u, st) := lua_newuserdata st
  let st := setBlock st u (.host ty payload)
  let (_, st) := lua_newtable st
  (string_push_to_lua (bs "__typeid") st).bind fun st =>
  (string_push_to_lua typeid st).bind fun st =>
  let st := lua_settable st (-3)
  (string_push_to_lua (bs "__gc") st).bind fun st =>
  let st := lua_pushlightuserdata st (destructorAddr ty)
  let st := lua_pushcclosure st destructorWrapperAddr 1
  let st := lua_settable st (-3)
  let st := applyBuilder extra st
  some (lua_setmetatable st (-2))

/-- `pub fn push_lightuserdata`: push only the address of the host-owned
value, and attach a metatable holding `__typeid` — and nothing else. -/
def push_lightuserdata (ty addr : Nat) (extra : TableData) (st : LuaState) :
    Option LuaState :=
  let typeid := typeIdBytes ty
  let st := lua_pushlightuserdata st addr
  let (_, st) := lua_newtable st
  (string_push_to_lua (bs "__typeid") st).bind fun st =>
  (string_push_to_lua typeid st).bind fun st =>
  let st := lua_settable st (-3)
  let st := applyBuilder extra st
  some (lua_setmetatable st (-2))

/-- Modelled from the spec: the crate-root trait helper
`LuaRead::lua_read` (in the crate root, not under `src/`) decodes the
value at the top of the stack, index `-1`. -/
def string_lua_read (st : LuaState) : Option Bytes :=
  string_lua_read_with_pop st (-1)

/-- `pub fn read_userdata`: the identity-checked typed retrieval.  The
returned `Option Nat` is the `Option<&mut T>` of the source — the address
of the block on success. -/
def read_userdata (ty : Nat) (st : LuaState) (index : Int) :
    Option Nat × LuaState :=
  let expected := typeIdBytes ty
  match lua_touserdata st index with
  | none => (none, st)
  | some dataPtr =>
    match lua_getmetatable st index with
    | none => (none, st)
    | some st1 =>
      match string_push_to_lua (bs "__typeid") st1 with
      | none => (none, st1)
      | some st2 =>
        let st3 := lua_gettable st2 (-2)
        match string_lua_read st3 with
        | some v =>
          if v = expected then (some dataPtr, luaPop st3 2) else (none, st3)
        | none => (none, st3)

/-- One interpreter collection pass over the full userdata `u`: Lua
resolves `__gc` in its metatable, pushes the userdata and calls the
finalizer closure. -/
def gcPass (u : Nat) (st : LuaState) : Int × LuaState :=
  match (getUdata st u).bind Udata.meta with
  | some m =>
    match tget (getTable st m).entries (bs "__gc") with
    | .cclosure fn up =>
      let st := pushV st (.userdata u)
      let (r, st) := runCFn fn up st
      (r, luaPop st 1)
    | _ => (0, st)
  | none => (0, st)

/-- A script-side call of the published descriptor `d`: Lua resolves the
`__call` entry of the descriptor's metatable and calls it with the
descriptor as its argument. -/
def callDescriptor (d : Nat) (st : LuaState) : Int × LuaState :=
  match (getTable st d).meta with
  | some m2 =>
    match tget (getTable st m2).entries (bs "__call") with
    | .cclosure fn up =>
      let st := pushV st (.table d)
      runCFn fn up st
    | _ => (0, st)
  | none => (0, st)

/-- Modelled from the spec: `Lua::query::<LuaTable>` (crate root, not
under `src/`) resolves a global name and yields it only when the value
has the expected table shape. -/
def luaQueryTable (st : LuaState) (name : String) : Option Nat :=
  match gget st.globals name with
  | some (.table t) => some t
  | _ => none

/-- Modelled from the spec: `LuaTable::query::<LuaTable>` yields the
nested table under `k` only when the entry has table shape. -/
def tableQueryTable (st : LuaState) (t : Nat) (k : Bytes) : Option Nat :=
  match tget (getTable st t).entries k with
  | .table i => some i
  | _ => none

/-- Modelled from the spec: `LuaTable::set` writes one entry of a table;
the last write for a key wins. -/
def tableSet (st : LuaState) (t : Nat) (k : Bytes) (v : LuaValue) : LuaState :=
  setTableObj st t { getTable st t with entries := tset (getTable st t).entries k v }

/-- Modelled from the spec: `LuaTable::empty_table k` creates a fresh
empty table, stores it under `k`, and hands the new table back. -/
def emptyTable (st : LuaState) (t : Nat) (k : Bytes) : Nat × LuaState :=
  let i := st.nextId
  let st := { st with
    tables := (i, { entries := [], meta := none }) :: st.tables,
    nextId := st.nextId + 1 }
  (i, tableSet st t k (.table i))

/-- Modelled from the spec: `LuaTable::register` stores a bare native
callable (no upvalue) under the name. -/
def tableRegister (st : LuaState) (t : Nat) (k : Bytes) (fn : Nat) : LuaState :=
  tableSet st t k (.cclosure fn none)

/-- `LuaStruct::ensure_matetable` (source spelling): create and publish
the global descriptor unless one already exists under the type's name. -/
def ensure_matetable (ty : Nat) (st : LuaState) : Option LuaState :=
  let name := hostName ty
  match luaQueryTable st name with
  | some _ => some st
  | none =>
    let (_, st) := lua_newtable st
    (string_push_to_lua (bs "__typeid") st).bind fun st =>
    (string_push_to_lua (typeIdBytes ty) st).bind fun st =>
    let st := lua_settable st (-3)
    (string_push_to_lua (bs "__gc") st).bind fun st =>
    let st := lua_pushlightuserdata st (destructorAddr ty)
    let st := lua_pushcclosure st destructorWrapperAddr 1
    let st := lua_settable st (-3)
    (string_push_to_lua (bs "__index") st).bind fun st =>
    let (_, st) := lua_newtable st
    let st := lua_rawset st (-3)
    some (lua_setglobal st name)

/-- `LuaStruct::create`: ensure the descriptor, then give it a metatable
whose `__call` entry is the constructor closure.  (The descriptor fetched
by `lua_getglobal` stays on the stack: the balancing pop is commented out
in the source.) -/
def luaStruct_create (ty : Nat) (st : LuaState) : Option LuaState :=
  (ensure_matetable ty st).bind fun st =>
  let st := lua_getglobal st (hostName ty)
  if lua_istable st (-1) then
    let (_, st) := lua_newtable st
    (string_push_to_lua (bs "__call") st).bind fun st =>
    let st := lua_pushlightuserdata st (constructorAddr ty)
    let st := lua_pushcclosure st constructorWrapperAddr 1
    let st := lua_settable st (-3)
    some (lua_setmetatable st (-2))
  else some st

/-- `LuaStruct::def`: write a field value under `nm` into the type's
`__index` table, creating that table on first use; silently a no-op when
the global descriptor does not resolve to a table. -/
def luaStruct_def (ty : Nat) (nm : Bytes) (v : LuaValue) (st : LuaState) :
    LuaState :=
  match luaQueryTable st (hostName ty) with
  | some t =>
    match tableQueryTable st t (bs "__index") with
    | some ix => tableSet st ix nm v
    | none =>
      let (ix, st) := emptyTable st t (bs "__index")
      tableSet st ix nm v
  | none => st

/-- `LuaStruct::register`: like `luaStruct_def` but stores a native
callable. -/
def luaStruct_register (ty : Nat) (nm : Bytes) (fn : Nat) (st : LuaState) :
    LuaState :=
  match luaQueryTable st (hostName ty) with
  | some t =>
    match tableQueryTable st t (bs "__index") with
    | some ix => tableRegister st ix nm fn
    | none =>
      let (ix, st) := emptyTable st t (bs "__index")
      tableRegister st ix nm fn
  | none => st

/-- The metatable id the source's `lua_getmetatable` gate resolves for
the value at `index` (shared per-type table for light userdata). -/
def slotMetaId (st : LuaState) (index : Int) : Option Nat :=
  match absSlot st index with
  | some (.userdata u) => (getUdata st u).bind Udata.meta
  | some (.table t) => (getTable st t).meta
  | some (.lightuserdata _) => st.lightMeta
  | _ => none

/-- What `<String as LuaRead>::lua_read` makes of a fetched metatable
entry: the C-string view of its `lua_tolstring` image, lossily decoded;
`none` for values with no string image. -/
def tagDecode (v : LuaValue) : Option Bytes :=
  match v with
  | .str s => some (utf8Lossy (cstrTake s))
  | .integer n => some (utf8Lossy (cstrTake (intImage n)))
  | .number b => some (utf8Lossy (cstrTake (f64Image b)))
  | _ => none

/-! ## Concrete instance states -/

/-- A state whose single stack slot is a full userdata whose metatable
tags it with the identity string of type code 1. -/
def stWrongTag : LuaState :=
  { stack := [.userdata 0],
    tables := [(1, { entries := [(bs "__typeid", .str (typeIdBytes 1))], meta := none })],
    udatas := [(0, { block := .host 1 7, meta := some 1 })],
    globals := [], lightMeta := none, droppedLog := [], nextId := 2 }

/-- A state whose single stack slot is a full userdata whose `__typeid`
entry is NOT the identity string of type code 0 — it carries a trailing
nul byte — yet decodes to it after the C-string truncation the reader
applies. -/
def stNulTag : LuaState :=
  { stack := [.userdata 0],
    tables := [(1, { entries := [(bs "__typeid", .str [84, 0])], meta := none })],
    udatas := [(0, { block := .host 0 7, meta := some 1 })],
    globals := [], lightMeta := none, droppedLog := [], nextId := 2 }

/-- The state after pushing an owned host value (type code 3, payload 7)
onto the empty state. -/
def stOwned : LuaState := (push_userdata 3 7 [] stEmpty).getD stEmpty

/-- The state after pushing a reference-mode value (type code 3, host
address 555) onto the empty state. -/
def stLight : LuaState := (push_lightuserdata 3 555 [] stEmpty).getD stEmpty

/-- The state after `ensure_matetable` for type code 5 on the empty
state. -/
def stEnsured : LuaState := (ensure_matetable 5 stEmpty).getD stEmpty

/-- The state after `LuaStruct::create` for type code 5 on the empty
state. -/
def stCreated : LuaState := (luaStruct_create 5 stEmpty).getD stEmpty

/-- A state publishing a descriptor table for type code 5 that has no
`__index` entry yet. -/
def stNoIndex : LuaState :=
  { stack := [], tables := [(0, { entries := [], meta := none })],
    udatas := [], globals := [(hostName 5, .table 0)],
    lightMeta := none, droppedLog := [], nextId := 1 }

/-! ## Helper lemmas -/

theorem absSlot_top (st : LuaState) (v : LuaValue) :
    absSlot (pushV st v) (-1) = some v := by
  simp [absSlot, pushV]

theorem tget_tset_self (l : TableData) (k : Bytes) (v : LuaValue) :
    tget (tset l k v) k = v := by simp [tget, tset]

theorem tget_tset_other (l : TableData) (k k' : Bytes) (v : LuaValue)
    (h : k ≠ k') : tget (tset l k v) k' = tget l k' := by
  simp [tget, tset, h]

/-- C9: decoding a stack slot as `bool` first checks that the slot is
exactly boolean-typed; any non-boolean slot (number, string, nil, …)
decodes to `none`, never to a truthiness coercion, and a boolean slot
decodes to its own value. -/
theorem C9_bool_decode_strict (st : LuaState) (idx : Int) :
    ((∀ b, absSlot st idx ≠ some (.boolean b)) →
      bool_lua_read_with_pop st idx = none)
    ∧ (∀ b, absSlot st idx = some (.boolean b) →
      bool_lua_read_with_pop st idx = some b) := by
  unfold bool_lua_read_with_pop lua_isboolean lua_toboolean
  cases h : absSlot st idx with
  | none => simp
  | some v => cases v <;> simp_all

/-- Witness for C9 at concrete slots: an integer slot refuses to decode,
a boolean slot decodes to itself. -/
theorem C9_witness :
    bool_lua_read_with_pop (lua_pushinteger stEmpty 5) (-1) = none
    ∧ bool_lua_read_with_pop (lua_pushboolean stEmpty true) (-1) = some true :=
  ⟨(C9_bool_decode_strict (lua_pushinteger stEmpty 5) (-1)).1 (by decide),
   (C9_bool_decode_strict (lua_pushboolean stEmpty true) (-1)).2 true (by decide)⟩

/-- C8: encoding a host string holding an embedded nul byte aborts with
the encoding error (nothing is pushed, never a truncated string); a
nul-free string is pushed intact; and decoding a slot that holds a string
always succeeds, applying the lossy UTF-8 policy to the bytes the
C-string view exposes. -/
theorem C8_text_codec (s t : Bytes) (st : LuaState) (idx : Int) :
    (0 ∈ s → string_push_to_lua s st = none)
    ∧ (0 ∉ s → string_push_to_lua s st = some (pushV st (.str s)))
    ∧ (absSlot st idx = some (.str t) →
        string_lua_read_with_pop st idx = some (utf8Lossy (cstrTake t))) := by
  refine ⟨fun h => ?_, fun h => ?_, fun h => ?_⟩
  · simp [string_push_to_lua, h]
  · simp [string_push_to_lua, h, lua_pushstring]
  · simp [string_lua_read_with_pop, lua_tolstring, h]

/-- Witness for C8: a nul byte aborts the encode; a string with an
invalid UTF-8 byte pushes intact and decodes with the lossy policy. -/
theorem C8_witness :
    string_push_to_lua [104, 0, 105] stEmpty = none
    ∧ string_push_to_lua [104, 200, 105] stEmpty
        = some (pushV stEmpty (.str [104, 200, 105]))
    ∧ string_lua_read_with_pop (pushV stEmpty (.str [104, 200, 105])) (-1)
        = some (utf8Lossy (cstrTake [104, 200, 105])) :=
  ⟨(C8_text_codec [104, 0, 105] [] stEmpty 0).1 (by decide),
   (C8_text_codec [104, 200, 105] [] stEmpty 0).2.1 (by decide),
   (C8_text_codec [] [104, 200, 105] (pushV stEmpty (.str [104, 200, 105])) (-1)).2.2
     (by decide)⟩

theorem log2_eq_of (n k : Nat) (h1 : 2 ^ k ≤ n) (h2 : n < 2 ^ (k + 1)) :
    Nat.log2 n = k := by
  rw [Nat.log2_eq_log_two]
  exact Nat.log_eq_of_pow_le_of_lt_pow h1 h2

theorem hi_div (a b k : Nat) (h : b < 2 ^ k) : (a * 2 ^ k + b) / 2 ^ k = a := by
  rw [Nat.mul_comm a, Nat.mul_add_div (pow_pos (by norm_num) k)]
  simp [Nat.div_eq_of_lt h]

theorem hi_mod (a b k : Nat) (h : b < 2 ^ k) : (a * 2 ^ k + b) % 2 ^ k = b := by
  rw [Nat.mul_comm a, Nat.mul_add_mod]
  exact Nat.mod_eq_of_lt h

theorem rhe_exact (a n : Nat) : rhe (a * 2 ^ n) n = a := by
  unfold rhe
  have h1 : a * 2 ^ n % 2 ^ n = 0 := Nat.mul_mod_left a (2 ^ n)
  have h2 : a * 2 ^ n / 2 ^ n = a := Nat.mul_div_cancel a (pow_pos (by norm_num) n)
  rw [h1, h2]
  have h3 : 0 < 2 ^ (n - 1) := pow_pos (by norm_num) _
  simp only [Nat.not_lt_zero, false_or]
  rw [if_neg]
  intro h4
  omega

open TdRlua

theorem roundPos_f32_normal (e m : Nat) (he1 : 1 ≤ e) (he2 : e ≤ 254)
    (hm : m < 2 ^ 23) :
    roundPos 23 127 (2 ^ 52 + m * 2 ^ 29) ((e : Int) - 179) = e * 2 ^ 23 + m := by
  have hL : Nat.log2 (2 ^ 52 + m * 2 ^ 29) = 52 :=
    log2_eq_of _ _ (by omega) (by omega)
  have hq : rheI (2 ^ 52 + m * 2 ^ 29)
      (((52 : Nat) : Int) + ((e : Int) - 179) - ((23 : Nat) : Int) - ((e : Int) - 179)) = 2 ^ 23 + m := by
    have h1 : (((52 : Nat) : Int) + ((e : Int) - 179) - ((23 : Nat) : Int) - ((e : Int) - 179)) = 29 := by
      push_cast; ring
    rw [h1]
    unfold rheI
    rw [if_neg (by norm_num)]
    have h3 : 2 ^ 52 + m * 2 ^ 29 = (2 ^ 23 + m) * 2 ^ 29 := by ring
    have h2 : ((29 : Int)).toNat = 29 := rfl
    rw [h2, h3, rhe_exact]
  simp only [roundPos, hL]
  rw [if_neg (by push_cast; omega)]
  rw [hq]
  rw [if_neg (by omega), if_neg (by omega), if_neg (by push_cast; omega)]
  have h4 : (((52 : Nat) : Int) + ((e : Int) - 179) + ((127 : Nat) : Int)).toNat = e := by push_cast; omega
  rw [h4]
  omega

theorem roundPos_f32_subnormal (t m : Nat) (ht : t ≤ 22)
    (h1 : 2 ^ t ≤ m) (h2 : m < 2 ^ (t + 1)) :
    roundPos 23 127 (m * 2 ^ (52 - t)) ((t : Int) - 201) = m := by
  have hts : t + (52 - t) = 52 := by omega
  have hlo : 2 ^ 52 ≤ m * 2 ^ (52 - t) := by
    calc 2 ^ 52 = 2 ^ t * 2 ^ (52 - t) := by rw [← pow_add, hts]
    _ ≤ m * 2 ^ (52 - t) := Nat.mul_le_mul_right _ h1
  have hhi : m * 2 ^ (52 - t) < 2 ^ 53 := by
    calc m * 2 ^ (52 - t) < 2 ^ (t + 1) * 2 ^ (52 - t) := by
          have hp : 0 < 2 ^ (52 - t) := pow_pos (by norm_num) _
          exact (Nat.mul_lt_mul_right hp).mpr h2
    _ = 2 ^ 53 := by rw [← pow_add]; congr 1; omega
  have hL : Nat.log2 (m * 2 ^ (52 - t)) = 52 := log2_eq_of _ _ hlo hhi
  have hq : rheI (m * 2 ^ (52 - t))
      (1 - ((127 : Nat) : Int) - ((23 : Nat) : Int) - ((t : Int) - 201)) = m := by
    have hsh : (1 - ((127 : Nat) : Int) - ((23 : Nat) : Int) - ((t : Int) - 201))
        = ((52 - t : Nat) : Int) := by omega
    rw [hsh]
    unfold rheI
    rw [if_neg (by omega)]
    have h5 : ((52 - t : Nat) : Int).toNat = 52 - t := by omega
    rw [h5, rhe_exact]
  simp only [roundPos, hL]
  rw [if_pos (by push_cast; omega)]
  exact hq

theorem narrow_widen_parts (s e m : Nat) (_hs : s < 2) (he : e < 256)
    (hm : m < 2 ^ 23) :
    narrowF64 (widenF32 (s * 2 ^ 31 + e * 2 ^ 23 + m)) = s * 2 ^ 31 + e * 2 ^ 23 + m := by
  have hb32s : (s * 2 ^ 31 + e * 2 ^ 23 + m) / 2 ^ 31 = s := by
    have h0 : s * 2 ^ 31 + e * 2 ^ 23 + m = s * 2 ^ 31 + (e * 2 ^ 23 + m) := by ring
    rw [h0]; exact hi_div _ _ _ (by omega)
  have hb32e : (s * 2 ^ 31 + e * 2 ^ 23 + m) / 2 ^ 23 % 2 ^ 8 = e := by
    have h0 : s * 2 ^ 31 + e * 2 ^ 23 + m = (s * 2 ^ 8 + e) * 2 ^ 23 + m := by ring
    rw [h0, hi_div _ _ _ hm]
    exact hi_mod _ _ _ (by omega)
  have hb32m : (s * 2 ^ 31 + e * 2 ^ 23 + m) % 2 ^ 23 = m := by
    have h0 : s * 2 ^ 31 + e * 2 ^ 23 + m = (s * 2 ^ 8 + e) * 2 ^ 23 + m := by ring
    rw [h0]; exact hi_mod _ _ _ hm
  simp only [widenF32, hb32s, hb32e, hb32m]
  by_cases h255 : e = 255
  · rw [if_pos h255]
    have hs' : (s * 2 ^ 63 + 2047 * 2 ^ 52 + m * 2 ^ 29) / 2 ^ 63 = s := by
      have h0 : s * 2 ^ 63 + 2047 * 2 ^ 52 + m * 2 ^ 29
          = s * 2 ^ 63 + (2047 * 2 ^ 52 + m * 2 ^ 29) := by ring
      rw [h0]; exact hi_div _ _ _ (by omega)
    have he' : (s * 2 ^ 63 + 2047 * 2 ^ 52 + m * 2 ^ 29) / 2 ^ 52 % 2 ^ 11 = 2047 := by
      have h0 : s * 2 ^ 63 + 2047 * 2 ^ 52 + m * 2 ^ 29
          = (s * 2 ^ 11 + 2047) * 2 ^ 52 + m * 2 ^ 29 := by ring
      rw [h0, hi_div _ _ _ (by omega)]
      exact hi_mod _ _ _ (by omega)
    have hm' : (s * 2 ^ 63 + 2047 * 2 ^ 52 + m * 2 ^ 29) % 2 ^ 52 = m * 2 ^ 29 := by
      have h0 : s * 2 ^ 63 + 2047 * 2 ^ 52 + m * 2 ^ 29
          = (s * 2 ^ 11 + 2047) * 2 ^ 52 + m * 2 ^ 29 := by ring
      rw [h0]; exact hi_mod _ _ _ (by omega)
    have hdd : m * 2 ^ 29 / 2 ^ 29 = m := Nat.mul_div_cancel m (by norm_num)
    simp only [narrowF64, hs', he', hm']
    rw [if_pos trivial]
    by_cases hm0 : m = 0
    · subst hm0
      rw [if_neg (by simp)]
      simp [h255]
    · rw [if_neg (by rw [hdd]; omega)]
      rw [hdd, h255]
  · rw [if_neg h255]
    by_cases h0 : e = 0
    · rw [if_pos h0]
      by_cases hm0 : m = 0
      · rw [if_pos hm0]
        have hs' : s * 2 ^ 63 / 2 ^ 63 = s := Nat.mul_div_cancel s (by norm_num)
        have he' : s * 2 ^ 63 / 2 ^ 52 % 2 ^ 11 = 0 := by
          have h1 : s * 2 ^ 63 = s * 2 ^ 11 * 2 ^ 52 := by ring
          rw [h1, Nat.mul_div_cancel _ (by norm_num : (0:Nat) < 2 ^ 52)]
          exact Nat.mul_mod_left s (2 ^ 11)
        have hm' : s * 2 ^ 63 % 2 ^ 52 = 0 := by
          have h1 : s * 2 ^ 63 = s * 2 ^ 11 * 2 ^ 52 := by ring
          rw [h1]; exact Nat.mul_mod_left _ _
        simp only [narrowF64, hs', he', hm']
        rw [if_neg (by norm_num), if_pos (by norm_num)]
        rw [h0, hm0]; ring
      · rw [if_neg hm0]
        have hmpos : m ≠ 0 := hm0
        have hm1 : 2 ^ Nat.log2 m ≤ m := Nat.log2_self_le hmpos
        have hm2 : m < 2 ^ (Nat.log2 m + 1) := Nat.lt_log2_self
        set t := Nat.log2 m with htdef
        have htle : t ≤ 22 := by
          by_contra hc
          push_neg at hc
          have : (2 : Nat) ^ 23 ≤ 2 ^ t := Nat.pow_le_pow_right (by norm_num) (by omega)
          omega
        have hts : t + (52 - t) = 52 := by omega
        have hpow52 : (2 : Nat) ^ 52 = 2 ^ t * 2 ^ (52 - t) := by rw [← pow_add, hts]
        have hpsucc : (2 : Nat) ^ (t + 1) = 2 ^ t * 2 := pow_succ 2 t
        have hsub : m - 2 ^ t < 2 ^ t := by omega
        have hMlt : (m - 2 ^ t) * 2 ^ (52 - t) < 2 ^ 52 := by
          calc (m - 2 ^ t) * 2 ^ (52 - t) < 2 ^ t * 2 ^ (52 - t) := by
                have hp : 0 < (2 : Nat) ^ (52 - t) := pow_pos (by norm_num) _
                exact (Nat.mul_lt_mul_right hp).mpr hsub
          _ = 2 ^ 52 := by rw [← pow_add, hts]
        have hs' : (s * 2 ^ 63 + (t + 874) * 2 ^ 52 + (m - 2 ^ t) * 2 ^ (52 - t)) / 2 ^ 63 = s := by
          have h1 : s * 2 ^ 63 + (t + 874) * 2 ^ 52 + (m - 2 ^ t) * 2 ^ (52 - t)
              = s * 2 ^ 63 + ((t + 874) * 2 ^ 52 + (m - 2 ^ t) * 2 ^ (52 - t)) := by ring
          rw [h1]; exact hi_div _ _ _ (by omega)
        have he' : (s * 2 ^ 63 + (t + 874) * 2 ^ 52 + (m - 2 ^ t) * 2 ^ (52 - t)) / 2 ^ 52 % 2 ^ 11
            = t + 874 := by
          have h1 : s * 2 ^ 63 + (t + 874) * 2 ^ 52 + (m - 2 ^ t) * 2 ^ (52 - t)
              = (s * 2 ^ 11 + (t + 874)) * 2 ^ 52 + (m - 2 ^ t) * 2 ^ (52 - t) := by ring
          rw [h1, hi_div _ _ _ hMlt]
          exact hi_mod _ _ _ (by omega)
        have hm' : (s * 2 ^ 63 + (t + 874) * 2 ^ 52 + (m - 2 ^ t) * 2 ^ (52 - t)) % 2 ^ 52
            = (m - 2 ^ t) * 2 ^ (52 - t) := by
          have h1 : s * 2 ^ 63 + (t + 874) * 2 ^ 52 + (m - 2 ^ t) * 2 ^ (52 - t)
              = (s * 2 ^ 11 + (t + 874)) * 2 ^ 52 + (m - 2 ^ t) * 2 ^ (52 - t) := by ring
          rw [h1]; exact hi_mod _ _ _ hMlt
        simp only [narrowF64, hs', he', hm']
        rw [if_neg (by omega), if_neg (by omega), if_neg (by omega), if_neg (by omega)]
        have hfold : 2 ^ 52 + (m - 2 ^ t) * 2 ^ (52 - t) = m * 2 ^ (52 - t) := by
          rw [hpow52, ← Nat.add_mul]
          congr 1
          omega
        have hcast : ((t + 874 : Nat) : Int) - 1075 = (t : Int) - 201 := by push_cast; ring
        rw [hfold, hcast, roundPos_f32_subnormal t m htle hm1 hm2]
        rw [h0]; ring
    · rw [if_neg h0]
      have hs' : (s * 2 ^ 63 + (e + 896) * 2 ^ 52 + m * 2 ^ 29) / 2 ^ 63 = s := by
        have h1 : s * 2 ^ 63 + (e + 896) * 2 ^ 52 + m * 2 ^ 29
            = s * 2 ^ 63 + ((e + 896) * 2 ^ 52 + m * 2 ^ 29) := by ring
        rw [h1]; exact hi_div _ _ _ (by omega)
      have he' : (s * 2 ^ 63 + (e + 896) * 2 ^ 52 + m * 2 ^ 29) / 2 ^ 52 % 2 ^ 11 = e + 896 := by
        have h1 : s * 2 ^ 63 + (e + 896) * 2 ^ 52 + m * 2 ^ 29
            = (s * 2 ^ 11 + (e + 896)) * 2 ^ 52 + m * 2 ^ 29 := by ring
        rw [h1, hi_div _ _ _ (by omega)]
        exact hi_mod _ _ _ (by omega)
      have hm' : (s * 2 ^ 63 + (e + 896) * 2 ^ 52 + m * 2 ^ 29) % 2 ^ 52 = m * 2 ^ 29 := by
        have h1 : s * 2 ^ 63 + (e + 896) * 2 ^ 52 + m * 2 ^ 29
            = (s * 2 ^ 11 + (e + 896)) * 2 ^ 52 + m * 2 ^ 29 := by ring
        rw [h1]; exact hi_mod _ _ _ (by omega)
      simp only [narrowF64, hs', he', hm']
      rw [if_neg (by omega), if_neg (by omega), if_neg (by omega), if_neg (by omega)]
      have hcast : ((e + 896 : Nat) : Int) - 1075 = (e : Int) - 179 := by push_cast; ring
      rw [hcast, roundPos_f32_normal e m (by omega) (by omega) hm]
      ring

theorem narrowF64_widenF32 (b : Nat) (hb : b < 2 ^ 32) :
    narrowF64 (widenF32 b) = b := by
  have h3 : b / 2 ^ 23 / 2 ^ 8 = b / 2 ^ 31 := by
    rw [Nat.div_div_eq_div_mul]; norm_num
  have hdecomp : b = b / 2 ^ 31 * 2 ^ 31 + b / 2 ^ 23 % 2 ^ 8 * 2 ^ 23 + b % 2 ^ 23 := by
    have h1 := Nat.div_add_mod b (2 ^ 23)
    have h2 := Nat.div_add_mod (b / 2 ^ 23) (2 ^ 8)
    omega
  rw [hdecomp]
  exact narrow_widen_parts _ _ _ (by omega) (by omega) (by omega)


theorem rt_i8 (st : LuaState) (k : Int) (h : -(2 ^ 7) ≤ k ∧ k < 2 ^ 7) :
    i8_lua_read_with_pop (i8_push_to_lua k st) (-1) = some k := by
  simp only [i8_lua_read_with_pop, i8_push_to_lua, lua_pushinteger,
    lua_tointegerx, absSlot_top, Option.map_some']
  rw [Option.some.injEq]
  unfold wrapSigned
  norm_num
  omega

theorem rt_i16 (st : LuaState) (k : Int) (h : -(2 ^ 15) ≤ k ∧ k < 2 ^ 15) :
    i16_lua_read_with_pop (i16_push_to_lua k st) (-1) = some k := by
  simp only [i16_lua_read_with_pop, i16_push_to_lua, lua_pushinteger,
    lua_tointegerx, absSlot_top, Option.map_some']
  rw [Option.some.injEq]
  unfold wrapSigned
  norm_num
  omega

theorem rt_i32 (st : LuaState) (k : Int) (h : -(2 ^ 31) ≤ k ∧ k < 2 ^ 31) :
    i32_lua_read_with_pop (i32_push_to_lua k st) (-1) = some k := by
  simp only [i32_lua_read_with_pop, i32_push_to_lua, lua_pushinteger,
    lua_tointegerx, absSlot_top, Option.map_some']
  rw [Option.some.injEq]
  unfold wrapSigned
  norm_num
  omega

theorem rt_u8 (st : LuaState) (k : Int) (h : 0 ≤ k ∧ k < 2 ^ 8) :
    u8_lua_read_with_pop (u8_push_to_lua k st) (-1) = some k := by
  simp only [u8_lua_read_with_pop, u8_push_to_lua, lua_pushinteger,
    lua_tointegerx, absSlot_top, Option.map_some']
  rw [Option.some.injEq]
  unfold wrapUnsigned
  norm_num
  omega

theorem rt_u16 (st : LuaState) (k : Int) (h : 0 ≤ k ∧ k < 2 ^ 16) :
    u16_lua_read_with_pop (u16_push_to_lua k st) (-1) = some k := by
  simp only [u16_lua_read_with_pop, u16_push_to_lua, lua_pushinteger,
    lua_tointegerx, absSlot_top, Option.map_some']
  rw [Option.some.injEq]
  unfold wrapUnsigned
  norm_num
  omega

theorem rt_u32 (st : LuaState) (k : Int) (h : 0 ≤ k ∧ k < 2 ^ 32) :
    u32_lua_read_with_pop (u32_push_to_lua k st) (-1) = some k := by
  simp only [u32_lua_read_with_pop, u32_push_to_lua, lua_pushinteger,
    lua_tointegerx, absSlot_top, Option.map_some']
  rw [Option.some.injEq]
  unfold wrapUnsigned
  norm_num
  omega

theorem rt_usize (st : LuaState) (k : Nat) (h : k < 2 ^ 64) :
    usize_lua_read_with_pop (usize_push_to_lua k st) (-1) = some k := by
  simp only [usize_lua_read_with_pop, usize_push_to_lua, lua_pushinteger,
    lua_tointegerx, absSlot_top, Option.map_some']
  rw [Option.some.injEq]
  unfold wrapUnsigned wrapSigned
  norm_num
  omega

theorem rt_f32 (st : LuaState) (b : Nat) (h : b < 2 ^ 32) :
    f32_lua_read_with_pop (f32_push_to_lua b st) (-1) = some b := by
  simp only [f32_lua_read_with_pop, f32_push_to_lua, lua_pushnumber,
    lua_tonumberx, absSlot_top, Option.map_some']
  rw [narrowF64_widenF32 b h]

theorem rt_f64 (st : LuaState) (b : Nat) :
    f64_lua_read_with_pop (f64_push_to_lua b st) (-1) = some b := by
  simp only [f64_lua_read_with_pop, f64_push_to_lua, lua_pushnumber,
    lua_tonumberx, absSlot_top]

theorem rt_bool (st : LuaState) (bv : Bool) :
    bool_lua_read_with_pop (bool_push_to_lua bv st) (-1) = some bv := by
  simp only [bool_lua_read_with_pop, bool_push_to_lua, lua_pushboolean,
    lua_isboolean, lua_toboolean, absSlot_top]
  simp

/-- C2: for every primitive kind the codec implements (i8, i16, i32, u8,
u16, u32, usize, f32, f64, bool) and every representable value of it,
pushing with `push_to_lua` and decoding the same slot with
`lua_read_with_pop` yields `some` of the value pushed; the float kinds
compare bit-exactly after the widen-to-f64 / narrow round trip. -/
theorem C2_primitive_roundtrip (st : LuaState)
    (k8 k16 k32 u8v u16v u32v : Int) (us : Nat) (b32 b64 : Nat) (bv : Bool)
    (h8 : -(2 ^ 7) ≤ k8 ∧ k8 < 2 ^ 7)
    (h16 : -(2 ^ 15) ≤ k16 ∧ k16 < 2 ^ 15)
    (h32 : -(2 ^ 31) ≤ k32 ∧ k32 < 2 ^ 31)
    (hu8 : 0 ≤ u8v ∧ u8v < 2 ^ 8)
    (hu16 : 0 ≤ u16v ∧ u16v < 2 ^ 16)
    (hu32 : 0 ≤ u32v ∧ u32v < 2 ^ 32)
    (hus : us < 2 ^ 64)
    (hb32 : b32 < 2 ^ 32) :
    i8_lua_read_with_pop (i8_push_to_lua k8 st) (-1) = some k8
    ∧ i16_lua_read_with_pop (i16_push_to_lua k16 st) (-1) = some k16
    ∧ i32_lua_read_with_pop (i32_push_to_lua k32 st) (-1) = some k32
    ∧ u8_lua_read_with_pop (u8_push_to_lua u8v st) (-1) = some u8v
    ∧ u16_lua_read_with_pop (u16_push_to_lua u16v st) (-1) = some u16v
    ∧ u32_lua_read_with_pop (u32_push_to_lua u32v st) (-1) = some u32v
    ∧ usize_lua_read_with_pop (usize_push_to_lua us st) (-1) = some us
    ∧ f32_lua_read_with_pop (f32_push_to_lua b32 st) (-1) = some b32
    ∧ f64_lua_read_with_pop (f64_push_to_lua b64 st) (-1) = some b64
    ∧ bool_lua_read_with_pop (bool_push_to_lua bv st) (-1) = some bv :=
  ⟨rt_i8 st k8 h8, rt_i16 st k16 h16, rt_i32 st k32 h32, rt_u8 st u8v hu8,
   rt_u16 st u16v hu16, rt_u32 st u32v hu32, rt_usize st us hus,
   rt_f32 st b32 hb32, rt_f64 st b64, rt_bool st bv⟩

/-- Witness for C2 at concrete values of all ten kinds (including the
f32 bit pattern of 3.14 and the f64 bit pattern of pi). -/
theorem C2_witness :
    i8_lua_read_with_pop (i8_push_to_lua (-5) stEmpty) (-1) = some (-5)
    ∧ i16_lua_read_with_pop (i16_push_to_lua 300 stEmpty) (-1) = some 300
    ∧ i32_lua_read_with_pop (i32_push_to_lua (-70000) stEmpty) (-1) = some (-70000)
    ∧ u8_lua_read_with_pop (u8_push_to_lua 200 stEmpty) (-1) = some 200
    ∧ u16_lua_read_with_pop (u16_push_to_lua 60000 stEmpty) (-1) = some 60000
    ∧ u32_lua_read_with_pop (u32_push_to_lua 4000000000 stEmpty) (-1) = some 4000000000
    ∧ usize_lua_read_with_pop (usize_push_to_lua (2 ^ 63 + 5) stEmpty) (-1)
        = some (2 ^ 63 + 5)
    ∧ f32_lua_read_with_pop (f32_push_to_lua 0x4048F5C3 stEmpty) (-1) = some 0x4048F5C3
    ∧ f64_lua_read_with_pop (f64_push_to_lua 0x400921FB54442D18 stEmpty) (-1)
        = some 0x400921FB54442D18
    ∧ bool_lua_read_with_pop (bool_push_to_lua true stEmpty) (-1) = some true :=
  C2_primitive_roundtrip stEmpty (-5) 300 (-70000) 200 60000 4000000000 (2 ^ 63 + 5)
    0x4048F5C3 0x400921FB54442D18 true (by norm_num) (by norm_num) (by norm_num)
    (by norm_num) (by norm_num) (by norm_num) (by norm_num) (by norm_num)

theorem foldl_tset_stack (extra : TableData) (t : Nat) (s : LuaState) :
    (extra.foldl (fun s p =>
      setTableObj s t { getTable s t with entries := tset (getTable s t).entries p.1 p.2 }) s).stack
      = s.stack := by
  induction extra generalizing s with
  | nil => rfl
  | cons p rest ih => rw [List.foldl_cons, ih]; simp [setTableObj]

theorem foldl_tset_udatas (extra : TableData) (t : Nat) (s : LuaState) :
    (extra.foldl (fun s p =>
      setTableObj s t { getTable s t with entries := tset (getTable s t).entries p.1 p.2 }) s).udatas
      = s.udatas := by
  induction extra generalizing s with
  | nil => rfl
  | cons p rest ih => rw [List.foldl_cons, ih]; simp [setTableObj]

theorem foldl_tset_misc (extra : TableData) (t : Nat) (s : LuaState) :
    (extra.foldl (fun s p =>
      setTableObj s t { getTable s t with entries := tset (getTable s t).entries p.1 p.2 }) s).globals
      = s.globals
    ∧ (extra.foldl (fun s p =>
      setTableObj s t { getTable s t with entries := tset (getTable s t).entries p.1 p.2 }) s).lightMeta
      = s.lightMeta
    ∧ (extra.foldl (fun s p =>
      setTableObj s t { getTable s t with entries := tset (getTable s t).entries p.1 p.2 }) s).droppedLog
      = s.droppedLog
    ∧ (extra.foldl (fun s p =>
      setTableObj s t { getTable s t with entries := tset (getTable s t).entries p.1 p.2 }) s).nextId
      = s.nextId := by
  induction extra generalizing s with
  | nil => exact ⟨rfl, rfl, rfl, rfl⟩
  | cons p rest ih =>
    rw [List.foldl_cons, (ih _).1, (ih _).2.1, (ih _).2.2.1, (ih _).2.2.2]
    simp [setTableObj]

theorem foldl_tset_getTable (extra : TableData) (t : Nat) (s : LuaState) :
    getTable (extra.foldl (fun s p =>
      setTableObj s t { getTable s t with entries := tset (getTable s t).entries p.1 p.2 }) s) t
      = { entries := extra.foldl (fun es p => tset es p.1 p.2) (getTable s t).entries,
          meta := (getTable s t).meta } := by
  induction extra generalizing s with
  | nil => simp
  | cons p rest ih =>
    rw [List.foldl_cons, List.foldl_cons, ih]
    simp [setTableObj, getTable, hget]

theorem foldl_tset_getTable_other (extra : TableData) (t t' : Nat) (h : t ≠ t') (s : LuaState) :
    getTable (extra.foldl (fun s p =>
      setTableObj s t { getTable s t with entries := tset (getTable s t).entries p.1 p.2 }) s) t'
      = getTable s t' := by
  induction extra generalizing s with
  | nil => rfl
  | cons p rest ih =>
    rw [List.foldl_cons, ih]
    simp [setTableObj, getTable, hget, h]

theorem tget_foldl_not_mem (extra : TableData) (es : TableData) (k : Bytes)
    (h : ∀ v, (k, v) ∉ extra) :
    tget (extra.foldl (fun es p => tset es p.1 p.2) es) k = tget es k := by
  induction extra generalizing es with
  | nil => rfl
  | cons p rest ih =>
    rw [List.foldl_cons, ih]
    · rw [tget_tset_other]
      intro hk
      exact h p.2 (by rw [← hk] at *; exact List.mem_cons_self _ _)
    · intro v hv
      exact h v (List.mem_cons_of_mem _ hv)

theorem applyBuilder_stack (extra : TableData) (s : LuaState) :
    (applyBuilder extra s).stack = s.stack := by
  unfold applyBuilder
  cases h : s.stack.head? with
  | none => rfl
  | some v => cases v <;> simp [foldl_tset_stack]

theorem applyBuilder_udatas (extra : TableData) (s : LuaState) :
    (applyBuilder extra s).udatas = s.udatas := by
  unfold applyBuilder
  cases h : s.stack.head? with
  | none => rfl
  | some v => cases v <;> simp [foldl_tset_udatas]

theorem applyBuilder_globals (extra : TableData) (s : LuaState) :
    (applyBuilder extra s).globals = s.globals := by
  unfold applyBuilder
  cases h : s.stack.head? with
  | none => rfl
  | some v => cases v <;> simp [(foldl_tset_misc _ _ _).1]

theorem applyBuilder_lightMeta (extra : TableData) (s : LuaState) :
    (applyBuilder extra s).lightMeta = s.lightMeta := by
  unfold applyBuilder
  cases h : s.stack.head? with
  | none => rfl
  | some v => cases v <;> simp [(foldl_tset_misc _ _ _).2.1]

theorem applyBuilder_droppedLog (extra : TableData) (s : LuaState) :
    (applyBuilder extra s).droppedLog = s.droppedLog := by
  unfold applyBuilder
  cases h : s.stack.head? with
  | none => rfl
  | some v => cases v <;> simp [(foldl_tset_misc _ _ _).2.2.1]

theorem applyBuilder_nextId (extra : TableData) (s : LuaState) :
    (applyBuilder extra s).nextId = s.nextId := by
  unfold applyBuilder
  cases h : s.stack.head? with
  | none => rfl
  | some v => cases v <;> simp [(foldl_tset_misc _ _ _).2.2.2]

theorem applyBuilder_getTable (extra : TableData) (s : LuaState) (t : Nat)
    (h : s.stack.head? = some (.table t)) :
    getTable (applyBuilder extra s) t
      = { entries := extra.foldl (fun es p => tset es p.1 p.2) (getTable s t).entries,
          meta := (getTable s t).meta } := by
  unfold applyBuilder
  rw [h]
  exact foldl_tset_getTable extra t s

theorem mem_zero_bs_typeid : (0 ∈ bs "__typeid") = False := by decide

theorem mem_zero_bs_gc : (0 ∈ bs "__gc") = False := by decide

theorem mem_zero_bs_index : (0 ∈ bs "__index") = False := by decide

theorem mem_zero_bs_call : (0 ∈ bs "__call") = False := by decide

theorem mem_zero_typeIdBytes (ty : Nat) : (0 ∈ typeIdBytes ty) = False := by
  simp [typeIdBytes, List.mem_replicate]

set_option maxHeartbeats 2000000 in
theorem push_userdata_char (ty payload : Nat) (extra : TableData) (st0 st1 : LuaState)
    (h : push_userdata ty payload extra st0 = some st1) :
    st1.stack = .userdata st0.nextId :: st0.stack
    ∧ getUdata st1 st0.nextId
        = some { block := .host ty payload, meta := some (st0.nextId + 1) }
    ∧ getTable st1 (st0.nextId + 1)
        = { entries := extra.foldl (fun es p => tset es p.1 p.2)
              [(bs "__gc", .cclosure destructorWrapperAddr (some (destructorAddr ty))),
               (bs "__typeid", .str (typeIdBytes ty))],
            meta := none }
    ∧ st1.globals = st0.globals ∧ st1.lightMeta = st0.lightMeta
    ∧ st1.droppedLog = st0.droppedLog ∧ st1.nextId = st0.nextId + 2 := by
  simp +decide [push_userdata, lua_newuserdata, lua_newtable, string_push_to_lua,
    lua_pushstring, lua_pushlightuserdata, lua_pushcclosure, lua_settable,
    lua_setmetatable, luaPop, pushV, absSlot, setBlock, getUdata, setUdataObj,
    setTableObj, getTable, hget, mem_zero_bs_typeid, mem_zero_bs_gc,
    mem_zero_typeIdBytes, tset, applyBuilder_stack, applyBuilder_udatas] at h
  subst h
  refine ⟨by simp [applyBuilder_stack], ?_, ?_, by simp [applyBuilder_globals],
    by simp [applyBuilder_lightMeta], by simp [applyBuilder_droppedLog],
    by simp [applyBuilder_nextId]⟩
  · simp [getUdata, hget, applyBuilder_udatas]
  · have hgt := applyBuilder_getTable extra
      { stack := LuaValue.table (st0.nextId + 1) :: LuaValue.userdata st0.nextId :: st0.stack,
        tables :=
          (st0.nextId + 1,
              { entries :=
                  [(bs "__gc", LuaValue.cclosure destructorWrapperAddr (some (destructorAddr ty))),
                   (bs "__typeid", LuaValue.str (typeIdBytes ty))],
                meta := none }) ::
            (st0.nextId + 1, { entries := [(bs "__typeid", LuaValue.str (typeIdBytes ty))], meta := none }) ::
              (st0.nextId + 1, { entries := [], meta := none }) :: st0.tables,
        udatas :=
          (st0.nextId, { block := Block.host ty payload, meta := none }) ::
            (st0.nextId, { block := Block.raw, meta := none }) :: st0.udatas,
        globals := st0.globals, lightMeta := st0.lightMeta, droppedLog := st0.droppedLog,
        nextId := st0.nextId + 1 + 1 }
      (st0.nextId + 1) (by simp)
    simp [getTable, hget] at hgt ⊢
    rw [hgt]

theorem lua_getmetatable_eq (st : LuaState) (index : Int) :
    lua_getmetatable st index
      = (slotMetaId st index).map (fun m => pushV st (.table m)) := by
  unfold lua_getmetatable slotMetaId
  cases absSlot st index with
  | none => rfl
  | some v => cases v <;> simp

theorem read_userdata_no_ud (ty : Nat) (st : LuaState) (index : Int)
    (h : lua_touserdata st index = none) :
    read_userdata ty st index = (none, st) := by
  unfold read_userdata
  rw [h]

theorem read_userdata_no_meta (ty : Nat) (st : LuaState) (index : Int) (p : Nat)
    (hp : lua_touserdata st index = some p)
    (h : slotMetaId st index = none) :
    read_userdata ty st index = (none, st) := by
  unfold read_userdata
  rw [hp, lua_getmetatable_eq, h]
  simp

set_option maxHeartbeats 2000000 in
theorem read_userdata_mismatch (ty : Nat) (st : LuaState) (index : Int) (p m : Nat)
    (hp : lua_touserdata st index = some p)
    (hm : slotMetaId st index = some m)
    (hdec : tagDecode (tget (getTable st m).entries (bs "__typeid"))
      ≠ some (typeIdBytes ty)) :
    read_userdata ty st index
      = (none, pushV (pushV st (.table m)) (tget (getTable st m).entries (bs "__typeid"))) := by
  unfold read_userdata
  rw [hp, lua_getmetatable_eq, hm]
  simp only [Option.map_some']
  simp +decide [string_push_to_lua, lua_pushstring, mem_zero_bs_typeid,
    lua_gettable, absSlot, pushV, luaPop, getTable, string_lua_read,
    string_lua_read_with_pop, lua_tolstring]
  simp only [getTable] at hdec
  cases hv : tget ((hget st.tables m).getD { entries := [], meta := none }).entries (bs "__typeid") with
  | nil => simp
  | boolean b => simp
  | table i => simp
  | userdata i => simp
  | lightuserdata a => simp
  | cclosure f u => simp
  | str s =>
    simp only [tagDecode, hv, ne_eq, Option.some.injEq] at hdec
    simp [hdec]
  | integer n =>
    simp only [tagDecode, hv, ne_eq, Option.some.injEq] at hdec
    simp [hdec]
  | number b =>
    simp only [tagDecode, hv, ne_eq, Option.some.injEq] at hdec
    simp [hdec]

set_option maxHeartbeats 2000000 in
theorem read_userdata_match (ty : Nat) (st : LuaState) (index : Int) (p m : Nat)
    (hp : lua_touserdata st index = some p)
    (hm : slotMetaId st index = some m)
    (hdec : tagDecode (tget (getTable st m).entries (bs "__typeid"))
      = some (typeIdBytes ty)) :
    read_userdata ty st index = (some p, st) := by
  unfold read_userdata
  rw [hp, lua_getmetatable_eq, hm]
  simp only [Option.map_some']
  simp +decide [string_push_to_lua, lua_pushstring, mem_zero_bs_typeid,
    lua_gettable, absSlot, pushV, luaPop, getTable, string_lua_read,
    string_lua_read_with_pop, lua_tolstring]
  simp only [getTable] at hdec
  cases hv : tget ((hget st.tables m).getD { entries := [], meta := none }).entries (bs "__typeid") with
  | nil => simp [tagDecode, hv] at hdec
  | boolean b => simp [tagDecode, hv] at hdec
  | table i => simp [tagDecode, hv] at hdec
  | userdata i => simp [tagDecode, hv] at hdec
  | lightuserdata a => simp [tagDecode, hv] at hdec
  | cclosure f u => simp [tagDecode, hv] at hdec
  | str s =>
    simp only [tagDecode, hv, Option.some.injEq] at hdec
    simp [hdec]
  | integer n =>
    simp only [tagDecode, hv, Option.some.injEq] at hdec
    simp [hdec]
  | number b =>
    simp only [tagDecode, hv, Option.some.injEq] at hdec
    simp [hdec]

theorem cstrTake_of_nonzero (s : Bytes) (h : ∀ b ∈ s, b ≠ 0) : cstrTake s = s := by
  induction s with
  | nil => rfl
  | cons b rest ih =>
    have hb := h b (List.mem_cons_self b rest)
    simp only [cstrTake, List.takeWhile] at ih ⊢
    rw [show decide (b ≠ 0) = true by simpa using hb]
    rw [ih (fun x hx => h x (List.mem_cons_of_mem b hx))]

theorem utf8Lossy_ascii (s : Bytes) (h : ∀ b ∈ s, b < 128) : utf8Lossy s = s := by
  induction s with
  | nil => rfl
  | cons b rest ih =>
    rw [utf8Lossy.eq_def]
    simp only []
    rw [if_pos (h b (List.mem_cons_self b rest))]
    rw [ih (fun x hx => h x (List.mem_cons_of_mem b hx))]

theorem typeIdBytes_ascii (ty : Nat) : ∀ b ∈ typeIdBytes ty, b < 128 ∧ b ≠ 0 := by
  intro b hb
  simp [typeIdBytes, List.mem_replicate] at hb
  rcases hb with h | ⟨_, h⟩ <;> omega

theorem tagDecode_typeIdBytes (ty : Nat) :
    tagDecode (.str (typeIdBytes ty)) = some (typeIdBytes ty) := by
  simp only [tagDecode]
  rw [cstrTake_of_nonzero _ (fun b hb => (typeIdBytes_ascii ty b hb).2),
    utf8Lossy_ascii _ (fun b hb => (typeIdBytes_ascii ty b hb).1)]

theorem typeIdBytes_inj (a b : Nat) (h : typeIdBytes a = typeIdBytes b) : a = b := by
  simp only [typeIdBytes, List.cons.injEq, true_and] at h
  have := congrArg List.length h
  simpa using this



/-- C1 (amended): `read_userdata::<T>` returns `None` whenever the slot
holds no userdata, or the slot has no metatable attached, or the
metatable's `__typeid` entry does not *decode* — C-string truncation at
the first nul of its string image, then lossy UTF-8 — to the identity
string computed for `T` (the code compares the decoded text, not the raw
entry); for distinct host types `A ≠ B`, reading a slot produced by
`push_userdata::<B>` as `A` returns `None`, and reading a slot produced
by `push_userdata::<A>` as `A` returns `Some` of the address of the
stored block, which still holds the pushed value (no copy). -/
theorem C1_typed_retrieval (ty : Nat) (st : LuaState) (index : Int) :
    (lua_touserdata st index = none → (read_userdata ty st index).1 = none)
    ∧ (∀ p, lua_touserdata st index = some p → slotMetaId st index = none →
        (read_userdata ty st index).1 = none)
    ∧ (∀ p m, lua_touserdata st index = some p → slotMetaId st index = some m →
        tagDecode (tget (getTable st m).entries (bs "__typeid"))
          ≠ some (typeIdBytes ty) →
        (read_userdata ty st index).1 = none)
    ∧ (∀ A B payload extra st0 st1, A ≠ B → (∀ v, (bs "__typeid", v) ∉ extra) →
        push_userdata B payload extra st0 = some st1 →
        (read_userdata A st1 (-1)).1 = none)
    ∧ (∀ A payload extra st0 st1, (∀ v, (bs "__typeid", v) ∉ extra) →
        push_userdata A payload extra st0 = some st1 →
        (read_userdata A st1 (-1)).1 = some st0.nextId
          ∧ (getUdata (read_userdata A st1 (-1)).2 st0.nextId).map Udata.block
              = some (.host A payload)) := by
  refine ⟨?_, ?_, ?_, ?_, ?_⟩
  · intro h
    rw [read_userdata_no_ud ty st index h]
  · intro p hp hm
    rw [read_userdata_no_meta ty st index p hp hm]
  · intro p m hp hm hdec
    rw [read_userdata_mismatch ty st index p m hp hm hdec]
  · intro A B payload extra st0 st1 hAB hextra hpush
    obtain ⟨hstack, hud, htab, -, -, -, -⟩ :=
      push_userdata_char B payload extra st0 st1 hpush
    have hslot : absSlot st1 (-1) = some (.userdata st0.nextId) := by
      simp [absSlot, hstack]
    have hp : lua_touserdata st1 (-1) = some st0.nextId := by
      simp [lua_touserdata, hslot]
    have hm : slotMetaId st1 (-1) = some (st0.nextId + 1) := by
      simp [slotMetaId, hslot, getUdata] at hud ⊢
      simp [hud]
    have htag : tget (getTable st1 (st0.nextId + 1)).entries (bs "__typeid")
        = .str (typeIdBytes B) := by
      rw [htab]
      simp only []
      rw [tget_foldl_not_mem _ _ _ hextra]
      simp +decide [tget]
    have hne : tagDecode (tget (getTable st1 (st0.nextId + 1)).entries (bs "__typeid"))
        ≠ some (typeIdBytes A) := by
      rw [htag, tagDecode_typeIdBytes]
      intro hc
      exact hAB (typeIdBytes_inj B A (by simpa using hc)).symm
    rw [read_userdata_mismatch A st1 (-1) st0.nextId (st0.nextId + 1) hp hm hne]
  · intro A payload extra st0 st1 hextra hpush
    obtain ⟨hstack, hud, htab, -, -, -, -⟩ :=
      push_userdata_char A payload extra st0 st1 hpush
    have hslot : absSlot st1 (-1) = some (.userdata st0.nextId) := by
      simp [absSlot, hstack]
    have hp : lua_touserdata st1 (-1) = some st0.nextId := by
      simp [lua_touserdata, hslot]
    have hm : slotMetaId st1 (-1) = some (st0.nextId + 1) := by
      simp [slotMetaId, hslot, getUdata] at hud ⊢
      simp [hud]
    have htag : tget (getTable st1 (st0.nextId + 1)).entries (bs "__typeid")
        = .str (typeIdBytes A) := by
      rw [htab]
      simp only []
      rw [tget_foldl_not_mem _ _ _ hextra]
      simp +decide [tget]
    have hdec : tagDecode (tget (getTable st1 (st0.nextId + 1)).entries (bs "__typeid"))
        = some (typeIdBytes A) := by
      rw [htag, tagDecode_typeIdBytes]
    rw [read_userdata_match A st1 (-1) st0.nextId (st0.nextId + 1) hp hm hdec]
    exact ⟨rfl, by rw [hud]; rfl⟩

/-- Counterexample to C1 as stated: the slot's metatable carries a
`__typeid` entry that is not equal to the identity string of type code 0
(it has a trailing nul byte), yet `read_userdata` returns `Some` because
it compares the C-string-truncated, lossily decoded text. -/
theorem C1_counterexample :
    tget (getTable stNulTag 1).entries (bs "__typeid") ≠ .str (typeIdBytes 0)
    ∧ slotMetaId stNulTag (-1) = some 1
    ∧ (read_userdata 0 stNulTag (-1)).1 = some 0 := by decide

/-- Witness for C1 on concrete states: the empty stack reads as `None`,
a slot pushed for type 3 reads as `None` at type 4 and as `Some` of the
block address at type 3, with the block intact. -/
theorem C1_witness :
    (read_userdata 3 stEmpty (-1)).1 = none
    ∧ (read_userdata 4 stOwned (-1)).1 = none
    ∧ (read_userdata 3 stOwned (-1)).1 = some 0
    ∧ (getUdata (read_userdata 3 stOwned (-1)).2 0).map Udata.block
        = some (.host 3 7) := by
  refine ⟨(C1_typed_retrieval 3 stEmpty (-1)).1 (by decide), ?_, ?_, ?_⟩
  · exact (C1_typed_retrieval 0 stEmpty 0).2.2.2.1 4 3 7 [] stEmpty stOwned
      (by decide) (by simp) (by decide)
  · exact ((C1_typed_retrieval 0 stEmpty 0).2.2.2.2 3 7 [] stEmpty stOwned
      (by simp) (by decide)).1
  · exact ((C1_typed_retrieval 0 stEmpty 0).2.2.2.2 3 7 [] stEmpty stOwned
      (by simp) (by decide)).2

/-- C10 (amended): `read_userdata` leaves the stack as it found it on the
success path and on the no-userdata and no-metatable paths; but on the
type-mismatch path it returns with the metatable and the fetched
`__typeid` entry still pushed (two extra stack values). -/
theorem C10_read_userdata_stack (ty : Nat) (st : LuaState) (index : Int) :
    (lua_touserdata st index = none → (read_userdata ty st index).2 = st)
    ∧ (∀ p, lua_touserdata st index = some p → slotMetaId st index = none →
        (read_userdata ty st index).2 = st)
    ∧ (∀ p m, lua_touserdata st index = some p → slotMetaId st index = some m →
        tagDecode (tget (getTable st m).entries (bs "__typeid"))
          = some (typeIdBytes ty) →
        (read_userdata ty st index).2 = st)
    ∧ (∀ p m, lua_touserdata st index = some p → slotMetaId st index = some m →
        tagDecode (tget (getTable st m).entries (bs "__typeid"))
          ≠ some (typeIdBytes ty) →
        (read_userdata ty st index).2
          = pushV (pushV st (.table m)) (tget (getTable st m).entries (bs "__typeid"))) := by
  refine ⟨?_, ?_, ?_, ?_⟩
  · intro h
    rw [read_userdata_no_ud ty st index h]
  · intro p hp hm
    rw [read_userdata_no_meta ty st index p hp hm]
  · intro p m hp hm hdec
    rw [read_userdata_match ty st index p m hp hm hdec]
  · intro p m hp hm hdec
    rw [read_userdata_mismatch ty st index p m hp hm hdec]

/-- Counterexample to C10 as stated: on the type-mismatch path the stack
is not left as it was found — it has grown by two values. -/
theorem C10_counterexample :
    (read_userdata 0 stWrongTag (-1)).2.stack.length = 3
    ∧ stWrongTag.stack.length = 1 := by decide

/-- Witness for C10 on concrete states: balanced on the success and
no-userdata paths, two extra values on the mismatch path. -/
theorem C10_witness :
    (read_userdata 3 stEmpty (-1)).2 = stEmpty
    ∧ (read_userdata 3 stOwned (-1)).2 = stOwned
    ∧ (read_userdata 0 stWrongTag (-1)).2
        = pushV (pushV stWrongTag (.table 1))
            (tget (getTable stWrongTag 1).entries (bs "__typeid")) :=
  ⟨(C10_read_userdata_stack 3 stEmpty (-1)).1 (by decide),
   (C10_read_userdata_stack 3 stOwned (-1)).2.2.1 0 1 (by decide) (by decide) (by decide),
   (C10_read_userdata_stack 0 stWrongTag (-1)).2.2.2 0 1 (by decide) (by decide) (by decide)⟩


set_option maxHeartbeats 2000000 in
theorem push_lightuserdata_char (ty addr : Nat) (extra : TableData) (st0 st1 : LuaState)
    (h : push_lightuserdata ty addr extra st0 = some st1) :
    st1.stack = .lightuserdata addr :: st0.stack
    ∧ st1.udatas = st0.udatas
    ∧ st1.lightMeta = some st0.nextId
    ∧ getTable st1 st0.nextId
        = { entries := extra.foldl (fun es p => tset es p.1 p.2)
              [(bs "__typeid", .str (typeIdBytes ty))],
            meta := none }
    ∧ st1.globals = st0.globals ∧ st1.droppedLog = st0.droppedLog := by
  simp +decide [push_lightuserdata, lua_newtable, string_push_to_lua,
    lua_pushstring, lua_pushlightuserdata, lua_settable, lua_setmetatable,
    luaPop, pushV, absSlot, setTableObj, getTable, hget, mem_zero_bs_typeid,
    mem_zero_typeIdBytes, tset, applyBuilder_stack, applyBuilder_udatas] at h
  subst h
  refine ⟨by simp [applyBuilder_stack], by simp [applyBuilder_udatas], rfl, ?_,
    by simp [applyBuilder_globals], by simp [applyBuilder_droppedLog]⟩
  have hgt := applyBuilder_getTable extra
    { stack := LuaValue.table st0.nextId :: LuaValue.lightuserdata addr :: st0.stack,
      tables :=
        (st0.nextId, { entries := [(bs "__typeid", LuaValue.str (typeIdBytes ty))], meta := none }) ::
          (st0.nextId, { entries := [], meta := none }) :: st0.tables,
      udatas := st0.udatas, globals := st0.globals, lightMeta := st0.lightMeta,
      droppedLog := st0.droppedLog, nextId := st0.nextId + 1 }
    st0.nextId (by simp)
  simp [getTable, hget] at hgt ⊢
  rw [hgt]

/-- C7: `push_lightuserdata` pushes only the address of the host-owned
value as a light userdata — no interpreter-owned block is created — and
attaches a metadata map carrying the `__typeid` identity tag but no
`__gc` entry, so the interpreter has no destruction hook to run for a
reference-mode value. -/
theorem C7_reference_push_no_finalizer (ty addr : Nat) (extra : TableData)
    (st0 st1 : LuaState)
    (hgc : ∀ v, (bs "__gc", v) ∉ extra)
    (htid : ∀ v, (bs "__typeid", v) ∉ extra)
    (h : push_lightuserdata ty addr extra st0 = some st1) :
    st1.stack = .lightuserdata addr :: st0.stack
    ∧ st1.udatas = st0.udatas
    ∧ st1.lightMeta = some st0.nextId
    ∧ tget (getTable st1 st0.nextId).entries (bs "__typeid")
        = .str (typeIdBytes ty)
    ∧ tget (getTable st1 st0.nextId).entries (bs "__gc") = .nil
    ∧ st1.droppedLog = st0.droppedLog := by
  obtain ⟨hstack, hud, hlm, htab, hglob, hlog⟩ :=
    push_lightuserdata_char ty addr extra st0 st1 h
  refine ⟨hstack, hud, hlm, ?_, ?_, hlog⟩
  · rw [htab]
    simp only []
    rw [tget_foldl_not_mem _ _ _ htid]
    simp [tget]
  · rw [htab]
    simp only []
    rw [tget_foldl_not_mem _ _ _ hgc]
    simp +decide [tget]

/-- Witness for C7 on a concrete reference-mode push. -/
theorem C7_witness :
    stLight.stack = [.lightuserdata 555]
    ∧ stLight.udatas = []
    ∧ stLight.lightMeta = some 0
    ∧ tget (getTable stLight 0).entries (bs "__typeid") = .str (typeIdBytes 3)
    ∧ tget (getTable stLight 0).entries (bs "__gc") = .nil
    ∧ stLight.droppedLog = [] :=
  C7_reference_push_no_finalizer 3 555 [] stEmpty stLight
    (by simp) (by simp) (by decide)


theorem gcPass_run (u m ty : Nat) (st : LuaState) (ud : Udata)
    (hud : getUdata st u = some ud) (hm : ud.meta = some m)
    (hgc : tget (getTable st m).entries (bs "__gc")
        = .cclosure destructorWrapperAddr (some (destructorAddr ty))) :
    gcPass u st = (0,
      { st with udatas := (u, { ud with block := .uninit }) :: st.udatas,
                droppedLog := st.droppedLog ++ [ud.block] }) := by
  have hud' : hget st.udatas u = some ud := hud
  unfold gcPass
  rw [hud]
  simp only [Option.some_bind, hm, hgc]
  simp +decide [runCFn, destructor_wrapper, runImpl, destructorAddr,
    destructorWrapperAddr, constructorWrapperAddr, destructor_impl,
    Nat.mul_mod_right, absSlot_top, pushV, absSlot, luaPop, setUdataObj,
    getUdata, hud', hm]

/-- C3: the `__gc` finalizer installed by `push_userdata`, when the
interpreter's collection invokes it, swaps the uninitialized placeholder
into the stored block (dropping — tearing down — the original host
value) and returns status 0; a second collection pass over the same
instance returns 0 again but finds and tears down only the placeholder,
never the original value, so meaningful teardown happens exactly once. -/
theorem C3_finalizer_discipline (ty payload : Nat) (extra : TableData)
    (st0 st1 : LuaState)
    (hgc : ∀ v, (bs "__gc", v) ∉ extra)
    (hpush : push_userdata ty payload extra st0 = some st1) :
    (gcPass st0.nextId st1).1 = 0
    ∧ (getUdata (gcPass st0.nextId st1).2 st0.nextId).map Udata.block
        = some .uninit
    ∧ (gcPass st0.nextId st1).2.droppedLog
        = st0.droppedLog ++ [.host ty payload]
    ∧ (gcPass st0.nextId (gcPass st0.nextId st1).2).1 = 0
    ∧ (getUdata (gcPass st0.nextId (gcPass st0.nextId st1).2).2 st0.nextId).map
        Udata.block = some .uninit
    ∧ (gcPass st0.nextId (gcPass st0.nextId st1).2).2.droppedLog
        = st0.droppedLog ++ [.host ty payload, .uninit] := by
  obtain ⟨hstack, hud, htab, hglob, hlm, hlog, hnext⟩ :=
    push_userdata_char ty payload extra st0 st1 hpush
  have htgc : tget (getTable st1 (st0.nextId + 1)).entries (bs "__gc")
      = .cclosure destructorWrapperAddr (some (destructorAddr ty)) := by
    rw [htab]
    simp only []
    rw [tget_foldl_not_mem _ _ _ hgc]
    simp [tget]
  have h1 := gcPass_run st0.nextId (st0.nextId + 1) ty st1
    { block := .host ty payload, meta := some (st0.nextId + 1) } hud rfl htgc
  rw [h1]
  have hud2 : getUdata
      ({ st1 with
          udatas := (st0.nextId, { block := .uninit, meta := some (st0.nextId + 1) })
            :: st1.udatas,
          droppedLog := st1.droppedLog ++ [Block.host ty payload] }) st0.nextId
      = some { block := .uninit, meta := some (st0.nextId + 1) } := by
    simp [getUdata, hget]
  have htgc2 : tget (getTable
      ({ st1 with
          udatas := (st0.nextId, { block := .uninit, meta := some (st0.nextId + 1) })
            :: st1.udatas,
          droppedLog := st1.droppedLog ++ [Block.host ty payload] })
      (st0.nextId + 1)).entries (bs "__gc")
      = .cclosure destructorWrapperAddr (some (destructorAddr ty)) := htgc
  have h2 := gcPass_run st0.nextId (st0.nextId + 1) ty _
    { block := .uninit, meta := some (st0.nextId + 1) } hud2 rfl htgc2
  rw [h2]
  refine ⟨rfl, by simp [getUdata, hget], by simp [hlog], rfl,
    by simp [getUdata, hget], by simp [hlog]⟩

/-- Witness for C3: pushing type 3 / payload 7 on the empty state and
collecting twice tears down the host value once and then only the
placeholder. -/
theorem C3_witness :
    (gcPass 0 stOwned).1 = 0
    ∧ (getUdata (gcPass 0 stOwned).2 0).map Udata.block = some .uninit
    ∧ (gcPass 0 stOwned).2.droppedLog = [.host 3 7]
    ∧ (gcPass 0 (gcPass 0 stOwned).2).1 = 0
    ∧ (getUdata (gcPass 0 (gcPass 0 stOwned).2).2 0).map Udata.block = some .uninit
    ∧ (gcPass 0 (gcPass 0 stOwned).2).2.droppedLog = [.host 3 7, .uninit] :=
  C3_finalizer_discipline 3 7 [] stEmpty stOwned (by simp) (by decide)


theorem nat_ne_add1 (n : Nat) : (n + 1 = n) = False := eq_false (by omega)

theorem nat_ne_add11 (n : Nat) : (n + 1 + 1 = n) = False := eq_false (by omega)

theorem nat_ne_add1' (n : Nat) : (n = n + 1) = False := eq_false (by omega)

theorem nat_ne_add11' (n : Nat) : (n = n + 1 + 1) = False := eq_false (by omega)

theorem nat_ne_add11_1 (n : Nat) : (n + 1 + 1 = n + 1) = False := eq_false (by omega)

theorem nat_ne_add1_11 (n : Nat) : (n + 1 = n + 1 + 1) = False := eq_false (by omega)

theorem ensure_existing (ty : Nat) (st : LuaState) (t : Nat)
    (h : luaQueryTable st (hostName ty) = some t) :
    ensure_matetable ty st = some st := by
  unfold ensure_matetable
  simp only []
  rw [h]

set_option maxHeartbeats 2000000 in
theorem ensure_fresh_char (ty : Nat) (st0 st1 : LuaState)
    (h0 : luaQueryTable st0 (hostName ty) = none)
    (h : ensure_matetable ty st0 = some st1) :
    gget st1.globals (hostName ty) = some (.table st0.nextId)
    ∧ (getTable st1 st0.nextId).meta = none
    ∧ tget (getTable st1 st0.nextId).entries (bs "__typeid")
        = .str (typeIdBytes ty)
    ∧ tget (getTable st1 st0.nextId).entries (bs "__gc")
        = .cclosure destructorWrapperAddr (some (destructorAddr ty))
    ∧ tget (getTable st1 st0.nextId).entries (bs "__index")
        = .table (st0.nextId + 1)
    ∧ getTable st1 (st0.nextId + 1) = { entries := [], meta := none }
    ∧ st1.stack = st0.stack ∧ st1.udatas = st0.udatas
    ∧ st1.droppedLog = st0.droppedLog ∧ st1.lightMeta = st0.lightMeta
    ∧ st1.nextId = st0.nextId + 2 := by
  unfold ensure_matetable at h
  simp +decide [h0, lua_newtable, string_push_to_lua, lua_pushstring,
    lua_pushlightuserdata, lua_pushcclosure, lua_settable, lua_rawset,
    lua_setglobal, luaPop, pushV, absSlot, setTableObj, getTable, hget,
    mem_zero_bs_typeid, mem_zero_bs_gc, mem_zero_bs_index,
    mem_zero_typeIdBytes, tset] at h
  subst h
  refine ⟨by simp [gget], ?_, ?_, ?_, ?_, ?_, rfl, rfl, rfl, rfl, rfl⟩ <;>
    simp +decide [getTable, hget, tget, Nat.self_eq_add_right,
      Nat.add_right_eq_self]

set_option maxHeartbeats 4000000 in
theorem create_fresh_char (ty : Nat) (st0 st1 : LuaState)
    (h0 : luaQueryTable st0 (hostName ty) = none)
    (h : luaStruct_create ty st0 = some st1) :
    gget st1.globals (hostName ty) = some (.table st0.nextId)
    ∧ (getTable st1 st0.nextId).meta = some (st0.nextId + 2)
    ∧ tget (getTable st1 st0.nextId).entries (bs "__typeid")
        = .str (typeIdBytes ty)
    ∧ tget (getTable st1 (st0.nextId + 2)).entries (bs "__call")
        = .cclosure constructorWrapperAddr (some (constructorAddr ty))
    ∧ st1.stack = .table st0.nextId :: st0.stack
    ∧ st1.udatas = st0.udatas
    ∧ st1.nextId = st0.nextId + 3 := by
  unfold luaStruct_create ensure_matetable at h
  simp +decide [h0, lua_newtable, string_push_to_lua, lua_pushstring,
    lua_pushlightuserdata, lua_pushcclosure, lua_settable, lua_rawset,
    lua_setglobal, lua_getglobal, lua_istable, lua_setmetatable, luaPop,
    pushV, absSlot, setTableObj, getTable, hget, gget, mem_zero_bs_typeid,
    mem_zero_bs_gc, mem_zero_bs_index, mem_zero_bs_call,
    mem_zero_typeIdBytes, tset] at h
  subst h
  refine ⟨by simp [gget], ?_, ?_, ?_, rfl, rfl, ?_⟩ <;>
    simp +decide [getTable, hget, tget, Nat.self_eq_add_right,
      Nat.add_right_eq_self, nat_ne_add1, nat_ne_add11, nat_ne_add1',
      nat_ne_add11', nat_ne_add11_1, nat_ne_add1_11]

theorem ctorAddr_mod (ty : Nat) : constructorAddr ty % 2 = 1 := by
  unfold constructorAddr
  omega

theorem ctorAddr_div (ty : Nat) : constructorAddr ty / 2 = ty := by
  unfold constructorAddr
  omega

set_option maxHeartbeats 2000000 in
theorem callDescriptor_run (ty d m2 : Nat) (st : LuaState)
    (hmeta : (getTable st d).meta = some m2)
    (hcall : tget (getTable st m2).entries (bs "__call")
        = .cclosure constructorWrapperAddr (some (constructorAddr ty)))
    (hglob : gget st.globals (hostName ty) = some (.table d)) :
    callDescriptor d st = (1,
      { st with
          stack := .userdata st.nextId :: .table d :: st.stack,
          udatas := (st.nextId, { block := .host ty (hostNew ty), meta := some d })
            :: (st.nextId, { block := .host ty (hostNew ty), meta := none })
            :: (st.nextId, { block := .raw, meta := none }) :: st.udatas,
          nextId := st.nextId + 1 }) := by
  unfold callDescriptor
  rw [hmeta]
  simp only [hcall]
  simp +decide [runCFn, constructor_wrapper, runImpl, ctorAddr_mod, ctorAddr_div,
    destructorWrapperAddr, constructorWrapperAddr, constructor_impl,
    lua_newuserdata, setBlock, getUdata, setUdataObj, lua_getglobal, hglob,
    lua_setmetatable, luaPop, pushV, absSlot, hget]

set_option maxHeartbeats 2000000 in
theorem create_existing_char (ty d : Nat) (st st2 : LuaState)
    (hglob : gget st.globals (hostName ty) = some (.table d))
    (hdm : d ≠ st.nextId)
    (h : luaStruct_create ty st = some st2) :
    gget st2.globals (hostName ty) = some (.table d)
    ∧ (getTable st2 d).meta = some st.nextId
    ∧ (getTable st2 d).entries = (getTable st d).entries
    ∧ tget (getTable st2 st.nextId).entries (bs "__call")
        = .cclosure constructorWrapperAddr (some (constructorAddr ty))
    ∧ st2.stack = .table d :: st.stack
    ∧ st2.udatas = st.udatas := by
  have hq : luaQueryTable st (hostName ty) = some d := by
    unfold luaQueryTable
    rw [hglob]
  unfold luaStruct_create ensure_matetable at h
  simp +decide [hq, hglob, lua_newtable, string_push_to_lua, lua_pushstring,
    lua_pushlightuserdata, lua_pushcclosure, lua_settable, lua_getglobal,
    lua_istable, lua_setmetatable, luaPop, pushV, absSlot, setTableObj,
    getTable, hget, mem_zero_bs_call, tset] at h
  subst h
  refine ⟨hglob, ?_, ?_, ?_, rfl, rfl⟩ <;>
    simp +decide [getTable, hget, tget, hdm, Ne.symm hdm]

set_option maxHeartbeats 2000000 in
theorem create_total (ty d : Nat) (st : LuaState)
    (hglob : gget st.globals (hostName ty) = some (.table d)) :
    ∃ st2, luaStruct_create ty st = some st2 := by
  have hq : luaQueryTable st (hostName ty) = some d := by
    unfold luaQueryTable
    rw [hglob]
  unfold luaStruct_create ensure_matetable
  simp +decide [hq, hglob, lua_newtable, string_push_to_lua, lua_pushstring,
    lua_pushlightuserdata, lua_pushcclosure, lua_settable, lua_getglobal,
    lua_istable, lua_setmetatable, luaPop, pushV, absSlot, setTableObj,
    getTable, hget, mem_zero_bs_call, tset]


/-- C5: `ensure_matetable` is idempotent — when a descriptor table is
already published under the type's name it does nothing at all;
otherwise it creates exactly one new descriptor holding the `__typeid`
identity tag, a `__gc` finalizer binding for the type, and an empty
`__index` field/method table, publishes it as a global under the type's
name, and a second call then leaves the state untouched, so two calls
yield one descriptor, not two. -/
theorem C5_ensure_idempotent (ty : Nat) (st st0 st1 : LuaState) :
    (∀ t, luaQueryTable st (hostName ty) = some t →
      ensure_matetable ty st = some st)
    ∧ (luaQueryTable st0 (hostName ty) = none →
      ensure_matetable ty st0 = some st1 →
      gget st1.globals (hostName ty) = some (.table st0.nextId)
      ∧ tget (getTable st1 st0.nextId).entries (bs "__typeid")
          = .str (typeIdBytes ty)
      ∧ tget (getTable st1 st0.nextId).entries (bs "__gc")
          = .cclosure destructorWrapperAddr (some (destructorAddr ty))
      ∧ tget (getTable st1 st0.nextId).entries (bs "__index")
          = .table (st0.nextId + 1)
      ∧ getTable st1 (st0.nextId + 1) = { entries := [], meta := none }
      ∧ ensure_matetable ty st1 = some st1) := by
  refine ⟨fun t ht => ensure_existing ty st t ht, fun h0 h => ?_⟩
  obtain ⟨hg, hmeta, htid, hgc, hix, hempty, -, -, -, -, -⟩ :=
    ensure_fresh_char ty st0 st1 h0 h
  refine ⟨hg, htid, hgc, hix, hempty, ?_⟩
  exact ensure_existing ty st1 st0.nextId (by unfold luaQueryTable; rw [hg])

/-- Witness for C5: creating the descriptor for type 5 on the empty
state, then checking a second call changes nothing. -/
theorem C5_witness :
    ensure_matetable 5 stEnsured = some stEnsured
    ∧ gget stEnsured.globals (hostName 5) = some (.table 0)
    ∧ tget (getTable stEnsured 0).entries (bs "__typeid")
        = .str (typeIdBytes 5)
    ∧ tget (getTable stEnsured 0).entries (bs "__gc")
        = .cclosure destructorWrapperAddr (some (destructorAddr 5))
    ∧ tget (getTable stEnsured 0).entries (bs "__index") = .table 1
    ∧ getTable stEnsured 1 = { entries := [], meta := none } := by
  have h := (C5_ensure_idempotent 5 stEmpty stEmpty stEnsured).2
    (by decide) (by decide)
  exact ⟨h.2.2.2.2.2, h.1, h.2.1, h.2.2.1, h.2.2.2.1, h.2.2.2.2.1⟩

/-- C4: `LuaStruct::create` first ensures the type's global descriptor
exists, then installs a metatable on the descriptor whose `__call` entry
is the constructor closure; calling the descriptor from script builds a
default-constructed value of the type (`T::new()`) and pushes it as a
fresh userdata slot whose metatable is the type's descriptor; calling
`create` a second time is not an error and merely re-installs the same
hook. -/
theorem C4_create_constructor (ty : Nat) (st0 st1 : LuaState)
    (h0 : luaQueryTable st0 (hostName ty) = none)
    (h : luaStruct_create ty st0 = some st1) :
    gget st1.globals (hostName ty) = some (.table st0.nextId)
    ∧ tget (getTable st1 st0.nextId).entries (bs "__typeid")
        = .str (typeIdBytes ty)
    ∧ (getTable st1 st0.nextId).meta = some (st0.nextId + 2)
    ∧ tget (getTable st1 (st0.nextId + 2)).entries (bs "__call")
        = .cclosure constructorWrapperAddr (some (constructorAddr ty))
    ∧ (callDescriptor st0.nextId st1).1 = 1
    ∧ (callDescriptor st0.nextId st1).2.stack.head?
        = some (.userdata st1.nextId)
    ∧ getUdata (callDescriptor st0.nextId st1).2 st1.nextId
        = some { block := .host ty (hostNew ty), meta := some st0.nextId }
    ∧ (∃ st2, luaStruct_create ty st1 = some st2
        ∧ (getTable st2 st0.nextId).meta = some st1.nextId
        ∧ tget (getTable st2 st1.nextId).entries (bs "__call")
            = .cclosure constructorWrapperAddr (some (constructorAddr ty))) := by
  obtain ⟨hg, hmeta, htid, hcall, hstack, hud, hnext⟩ :=
    create_fresh_char ty st0 st1 h0 h
  have hrun := callDescriptor_run ty st0.nextId (st0.nextId + 2) st1 hmeta hcall hg
  obtain ⟨st2, h2⟩ := create_total ty st0.nextId st1 hg
  obtain ⟨hg2, hmeta2, -, hcall2, -, -⟩ :=
    create_existing_char ty st0.nextId st1 st2 hg (by omega) h2
  refine ⟨hg, htid, hmeta, hcall, ?_, ?_, ?_, st2, h2, hmeta2, hcall2⟩
  · rw [hrun]
  · rw [hrun]; rfl
  · rw [hrun]
    simp [getUdata, hget]


/-- Witness for C4 at type code 5 on the empty state. -/
theorem C4_witness :
    gget stCreated.globals (hostName 5) = some (.table 0)
    ∧ tget (getTable stCreated 0).entries (bs "__typeid")
        = .str (typeIdBytes 5)
    ∧ (getTable stCreated 0).meta = some 2
    ∧ tget (getTable stCreated 2).entries (bs "__call")
        = .cclosure constructorWrapperAddr (some (constructorAddr 5))
    ∧ (callDescriptor 0 stCreated).1 = 1
    ∧ (callDescriptor 0 stCreated).2.stack.head? = some (.userdata 3)
    ∧ getUdata (callDescriptor 0 stCreated).2 3
        = some { block := .host 5 (hostNew 5), meta := some 0 }
    ∧ (∃ st2, luaStruct_create 5 stCreated = some st2
        ∧ (getTable st2 0).meta = some 3
        ∧ tget (getTable st2 3).entries (bs "__call")
            = .cclosure constructorWrapperAddr (some (constructorAddr 5))) :=
  C4_create_constructor 5 stEmpty stCreated (by decide) (by decide)


/-- C6: `def` (field) and `register` (method) write the given value or
callable into the type's `__index` table under the given name, creating
`__index` on first use when absent; for a given name the last write
wins with no duplicate-definition error; and when the global descriptor
lookup does not resolve to a value of table shape, both operations
silently no-op instead of raising. -/
theorem C6_field_method_definition (ty : Nat) (nm : Bytes) (v v2 : LuaValue)
    (fn : Nat) (st : LuaState) :
    (luaQueryTable st (hostName ty) = none →
      luaStruct_def ty nm v st = st ∧ luaStruct_register ty nm fn st = st)
    ∧ (∀ t ix, gget st.globals (hostName ty) = some (.table t) →
        tget (getTable st t).entries (bs "__index") = .table ix → t ≠ ix →
        tget (getTable (luaStruct_def ty nm v st) ix).entries nm = v
        ∧ tget (getTable (luaStruct_def ty nm v2 (luaStruct_def ty nm v st)) ix).entries nm
            = v2
        ∧ tget (getTable (luaStruct_register ty nm fn st) ix).entries nm
            = .cclosure fn none)
    ∧ (∀ t, gget st.globals (hostName ty) = some (.table t) →
        tableQueryTable st t (bs "__index") = none → t ≠ st.nextId →
        tget (getTable (luaStruct_def ty nm v st) t).entries (bs "__index")
            = .table st.nextId
        ∧ tget (getTable (luaStruct_def ty nm v st) st.nextId).entries nm = v) := by
  refine ⟨fun h0 => ?_, fun t ix hg hix htix => ?_, fun t hg hix htn => ?_⟩
  · refine ⟨?_, ?_⟩
    · unfold luaStruct_def
      rw [h0]
    · unfold luaStruct_register
      rw [h0]
  · have hq : luaQueryTable st (hostName ty) = some t := by
      unfold luaQueryTable
      rw [hg]
    have hqt : tableQueryTable st t (bs "__index") = some ix := by
      unfold tableQueryTable
      rw [hix]
    refine ⟨?_, ?_, ?_⟩
    · unfold luaStruct_def
      rw [hq]
      simp only [hqt]
      simp [tableSet, setTableObj, getTable, hget, tget, tset]
    · have hg' : gget (luaStruct_def ty nm v st).globals (hostName ty)
          = some (.table t) := by
        unfold luaStruct_def
        rw [hq]
        simp only [hqt]
        simpa [tableSet, setTableObj] using hg
      have hix' : tget (getTable (luaStruct_def ty nm v st) t).entries (bs "__index")
          = .table ix := by
        unfold luaStruct_def
        rw [hq]
        simp only [hqt]
        simpa [tableSet, setTableObj, getTable, hget, Ne.symm htix] using hix
      have hq' : luaQueryTable (luaStruct_def ty nm v st) (hostName ty) = some t := by
        unfold luaQueryTable
        rw [hg']
      have hqt' : tableQueryTable (luaStruct_def ty nm v st) t (bs "__index")
          = some ix := by
        unfold tableQueryTable
        rw [hix']
      conv_lhs => rw [luaStruct_def]
      rw [hq']
      simp only [hqt']
      simp [tableSet, setTableObj, getTable, hget, tget, tset]
    · unfold luaStruct_register
      rw [hq]
      simp only [hqt]
      simp [tableRegister, tableSet, setTableObj, getTable, hget, tget, tset]
  · have hq : luaQueryTable st (hostName ty) = some t := by
      unfold luaQueryTable
      rw [hg]
    unfold luaStruct_def
    rw [hq]
    simp only [hix]
    constructor <;>
      simp [emptyTable, tableSet, setTableObj, getTable, hget, tget, tset,
        htn, Ne.symm htn]

/-- Witness for C6: on the created type 5, field writes land in the
`__index` table with the last write winning, a method write stores the
callable, a missing `__index` is created on first use, and with no
descriptor both operations are no-ops. -/
theorem C6_witness :
    (luaStruct_def 5 (bs "x") (.integer 1) stEmpty = stEmpty
      ∧ luaStruct_register 5 (bs "m") 7 stEmpty = stEmpty)
    ∧ tget (getTable (luaStruct_def 5 (bs "x") (.integer 1) stCreated) 1).entries
        (bs "x") = .integer 1
    ∧ tget (getTable (luaStruct_def 5 (bs "x") (.integer 2)
        (luaStruct_def 5 (bs "x") (.integer 1) stCreated)) 1).entries (bs "x")
        = .integer 2
    ∧ tget (getTable (luaStruct_register 5 (bs "m") 7 stCreated) 1).entries
        (bs "m") = .cclosure 7 none
    ∧ tget (getTable (luaStruct_def 5 (bs "x") (.integer 1) stNoIndex) 0).entries
        (bs "__index") = .table 1
    ∧ tget (getTable (luaStruct_def 5 (bs "x") (.integer 1) stNoIndex) 1).entries
        (bs "x") = .integer 1 := by
  refine ⟨(C6_field_method_definition 5 (bs "x") (.integer 1) (.integer 2) 7
    stEmpty).1 (by decide), ?_, ?_, ?_, ?_, ?_⟩
  · exact ((C6_field_method_definition 5 (bs "x") (.integer 1) (.integer 2) 7
      stCreated).2.1 0 1 (by decide) (by decide) (by decide)).1
  · exact ((C6_field_method_definition 5 (bs "x") (.integer 1) (.integer 2) 7
      stCreated).2.1 0 1 (by decide) (by decide) (by decide)).2.1
  · exact ((C6_field_method_definition 5 (bs "m") (.integer 1) (.integer 2) 7
      stCreated).2.1 0 1 (by decide) (by decide) (by decide)).2.2
  · exact ((C6_field_method_definition 5 (bs "x") (.integer 1) (.integer 2) 7
      stNoIndex).2.2 0 (by decide) (by decide) (by decide)).1
  · exact ((C6_field_method_definition 5 (bs "x") (.integer 1) (.integer 2) 7
      stNoIndex).2.2 0 (by decide) (by decide) (by decide)).2

end TdRlua
